import Mathlib

/-!
# Verification of the cash-flow forecasting / trend-analysis engine

Shallow embedding of `src/forecasting/cash_flow_forecaster.py` and
`src/forecasting/trend_analyzer.py`.  Python floats are modelled as exact
real numbers (`ℝ`); `datetime` values are modelled at day granularity as
integers (`ℤ`), which is the only granularity the engine uses
(`timedelta(days=30*(i+1))`, `.days`); Python's `round(x, 2)` is modelled
as rounding `100*x` to the nearest integer (ties do not occur in any
statement below, so the tie-breaking convention is immaterial);
Python's `int()` truncates toward zero, modelled by `pyInt`.
-/

set_option maxHeartbeats 1000000

noncomputable section

open Classical

/-- Python `round(x, 2)`: round to two decimal digits. -/
def round2 (x : ℝ) : ℝ := ((round (100 * x) : ℤ) : ℝ) / 100

/-- Python `int(x)`: truncation toward zero. -/
def pyInt (x : ℝ) : ℤ := if 0 ≤ x then ⌊x⌋ else ⌈x⌉

/-- Mean of a list of values (`np.mean`); Lean's `x / 0 = 0` convention
makes the empty case total. -/
def listMean (l : List ℝ) : ℝ := l.sum / l.length

/-- Population variance of a list of values (`np.var`). -/
def listVar (l : List ℝ) : ℝ :=
  ((l.map (fun x => (x - listMean l) ^ 2)).sum) / l.length

/-- Population standard deviation (`np.std`). -/
def npStd (l : List ℝ) : ℝ := Real.sqrt (listVar l)

/-- Enum `ForecastScenario`: the five members of the Python enum, plus `other`
standing for any unrecognized scenario tag reaching the `else` branch of
`_apply_scenario`. -/
inductive Scenario
  | baseline
  | optimistic
  | pessimistic
  | growth
  | costCutting
  | other
  deriving DecidableEq

/-- Input `CashFlowData` of the forecaster.  Dates are days. -/
structure CashFlowData where
  dates : List ℤ
  cash_inflows : List ℝ
  cash_outflows : List ℝ
  cash_balances : List ℝ

/-- Property `CashFlowData.net_cash_flow`: `[i - o for i, o in zip(inflows, outflows)]`. -/
def netCashFlow (d : CashFlowData) : List ℝ :=
  List.zipWith (fun i o => i - o) d.cash_inflows d.cash_outflows

/-- Diagnostic metrics attached to a statistical forecast. -/
structure ForecastMetrics where
  weighted_avg_flow : ℝ
  std_dev : ℝ
  historical_periods : ℕ
  forecast_periods : ℕ

/-- Output record `ForecastResult`. -/
structure ForecastResult where
  forecast_dates : List ℤ
  predicted_cash : List ℝ
  lower_bound : List ℝ
  upper_bound : List ℝ
  confidence_level : ℝ
  runway_months : ℝ
  zero_cash_date : Option ℤ
  scenario : Scenario
  model_type : String
  metrics : ForecastMetrics

/-- The forecaster's error taxonomy: `forecast` raises only for short input. -/
inductive ForecastError
  | insufficientData
  deriving DecidableEq

/-- Scenario adjustment factors `(inflow_factor, outflow_factor)` from
`_apply_scenario`; `none` for the branches that return the data unchanged. -/
def scenarioFactors : Scenario → Option (ℝ × ℝ)
  | .baseline => none
  | .optimistic => some (1.20, 0.90)
  | .pessimistic => some (0.80, 1.10)
  | .growth => some (1.30, 1.15)
  | .costCutting => some (1.0, 0.80)
  | .other => none

/-- The in-place loop
`for i in range(n): adjusted[idx] *= (1 + (factor - 1) * (i+1)/n)` with
`idx = -(n-i)` rewrites the last `n` entries of the list, entry
`len - (n - i)` getting weight `(i+1)/n`.  Equivalently: keep the first
`len - n` entries and scale the `i`-th of the last `n` by
`1 + (factor - 1) * (i+1)/n`. -/
def adjustTail (factor : ℝ) (n : ℕ) (l : List ℝ) : List ℝ :=
  l.take (l.length - n) ++
    (List.zipWith (fun v (i : ℕ) => v * (1 + (factor - 1) * ((i + 1 : ℕ) : ℝ) / n))
      (l.drop (l.length - n)) (List.range n))

/-- The balance-rebuild loop
`for i in range(1, len): bal[i] = bal[i-1] + net[i]` — given the running
previous balance and the net flows from index 1 on, produce the rebuilt
tail of the balance list. -/
def rebuildBal (prev : ℝ) : List ℝ → List ℝ
  | [] => []
  | x :: xs => (prev + x) :: rebuildBal (prev + x) xs

/-- Method `_apply_scenario`: for a non-baseline recognized scenario, scale the
last `min(3, len)` inflows/outflows with linearly increasing weight and
rebuild the balance series forward from the first balance; baseline and
unrecognized scenarios return the data unchanged. -/
def applyScenario (s : Scenario) (d : CashFlowData) : CashFlowData :=
  match scenarioFactors s with
  | none => d
  | some (fI, fO) =>
    let n := min 3 d.dates.length
    let adjIn := adjustTail fI n d.cash_inflows
    let adjOut := adjustTail fO n d.cash_outflows
    let nets := List.zipWith (fun i o => i - o) adjIn adjOut
    let adjBal :=
      match d.cash_balances with
      | [] => []
      | b0 :: _ => b0 :: rebuildBal b0 (nets.drop 1)
    { dates := d.dates
      cash_inflows := adjIn
      cash_outflows := adjOut
      cash_balances := adjBal }

/-- Line `z_score = 1.28 if self.confidence_level == 0.80 else 1.96`. -/
def zScore (confidence : ℝ) : ℝ := if confidence = 0.80 then 1.28 else 1.96

/-- Weighted moving average over the last `min(6, len)` net flows with
weights `1, 2, ..., k` (`weights = range(1, len(recent)+1)`). -/
def weightedMovingAvg (netFlows : List ℝ) : ℝ :=
  let recent := netFlows.drop (netFlows.length - min 6 netFlows.length)
  let weights := (List.range recent.length).map (fun i => ((i + 1 : ℕ) : ℝ))
  (List.zipWith (fun f w => f * w) recent weights).sum / weights.sum

/-- Dispersion: `np.std(net_flows)` when more than 2 flows, else
`abs(weighted_avg) * 0.2`. -/
def forecastStd (netFlows : List ℝ) (wavg : ℝ) : ℝ :=
  if 2 < netFlows.length then npStd netFlows else |wavg| * 0.2

/-- Confidence half-width at horizon step `i` (0-based):
`z_score * std_dev * np.sqrt(i + 1)`. -/
def intervalWidth (z std : ℝ) (i : ℕ) : ℝ := z * std * Real.sqrt ((i : ℝ) + 1)

/-- The forecast loop `for i in range(periods)`: each iteration appends
`last_date + 30*(i+1)` to the dates, adds `weighted_avg` to the running
cash, and records the rounded point estimate and bounds.  Row `=`
(date, predicted, lower, upper); `i` is the loop counter, the second
argument the remaining iteration count. -/
def forecastRows (lastDate : ℤ) (wavg z std : ℝ) : ℝ → ℕ → ℕ → List (ℤ × ℝ × ℝ × ℝ)
  | _, _, 0 => []
  | cash, i, n + 1 =>
    let nextDate := lastDate + 30 * ((i : ℤ) + 1)
    let newCash := cash + wavg
    let w := intervalWidth z std i
    (nextDate, round2 newCash, round2 (newCash - w), round2 (newCash + w)) ::
      forecastRows lastDate wavg z std newCash (i + 1) n

/-- The scan of `_calculate_runway`: walk the zipped
(projected cash, date) list carrying the loop index and the previous
entry; `some` = an early `return` fired, `none` = the loop ran out.
`prevCash` starts as the `current_cash` argument (Python's
`prev_cash = current_cash if i == 0 else forecast[i-1]` — the `i == 0`
arm is dead because the enclosing test is `i > 0`). -/
def runwayScanAux (now : ℤ) : ℝ → ℤ → ℕ → List (ℝ × ℤ) → Option (ℝ × Option ℤ)
  | _, _, _, [] => none
  | prevCash, prevDate, i, (cash, date) :: rest =>
    if cash ≤ 0 then
      some
        (if 0 < i then
          if prevCash ≠ cash then
            let daysDiff := date - prevDate
            let ratio := prevCash / (prevCash - cash)
            let zeroDate := prevDate + pyInt ((daysDiff : ℝ) * ratio)
            let runway : ℝ := ((zeroDate - now : ℤ) : ℝ) / 30
            (max 0 runway, some zeroDate)
          else ((i : ℝ), some date)
        else ((i : ℝ), some date))
    else runwayScanAux now cash date (i + 1) rest

/-- Method `_calculate_runway(current_cash, forecast, dates)`: the zipped scan,
returning `(len(forecast), None)` when cash never goes nonpositive.
`now` stands for `datetime.now()` read inside the interpolation branch. -/
def calculateRunway (currentCash : ℝ) (forecast : List ℝ) (dates : List ℤ)
    (now : ℤ) : ℝ × Option ℤ :=
  (runwayScanAux now currentCash 0 0 (forecast.zip dates)).getD
    ((forecast.length : ℝ), none)

/-- The `weighted_avg` as computed by `_forecast_statistical` on `data`. -/
def wavgOf (data : CashFlowData) : ℝ := weightedMovingAvg (netCashFlow data)

/-- The `std_dev` as computed by `_forecast_statistical` on `data`. -/
def stdOf (data : CashFlowData) : ℝ := forecastStd (netCashFlow data) (wavgOf data)

/-- Line `last_date = data.dates[-1]`. -/
def lastDateOf (data : CashFlowData) : ℤ := data.dates.getLast?.getD 0

/-- Line `last_cash = data.cash_balances[-1]`. -/
def lastCashOf (data : CashFlowData) : ℝ := data.cash_balances.getLast?.getD 0

/-- Method `_forecast_statistical(data, periods, scenario)`.  `now` is the wall
clock consulted by `_calculate_runway`. -/
def forecastStatistical (data : CashFlowData) (periods : ℕ) (scenario : Scenario)
    (confidence : ℝ) (now : ℤ) : ForecastResult :=
  let wavg := wavgOf data
  let std := stdOf data
  let lastDate := lastDateOf data
  let lastCash := lastCashOf data
  let z := zScore confidence
  let rows := forecastRows lastDate wavg z std lastCash 0 periods
  let fDates := rows.map (fun r => r.1)
  let predicted := rows.map (fun r => r.2.1)
  let lower := rows.map (fun r => r.2.2.1)
  let upper := rows.map (fun r => r.2.2.2)
  let rz := calculateRunway lastCash predicted fDates now
  { forecast_dates := fDates
    predicted_cash := predicted
    lower_bound := lower
    upper_bound := upper
    confidence_level := confidence
    runway_months := rz.1
    zero_cash_date := rz.2
    scenario := scenario
    model_type := "statistical"
    metrics :=
      { weighted_avg_flow := round2 wavg
        std_dev := round2 std
        historical_periods := data.dates.length
        forecast_periods := periods } }

/-- Method `forecast(data, periods, scenario)` in the statistical-model
configuration (Prophet unavailable): guard on fewer than 3 data points,
apply the scenario adjustment, then run the statistical projection. -/
def forecast (data : CashFlowData) (periods : ℕ) (scenario : Scenario)
    (confidence : ℝ) (now : ℤ) : Except ForecastError ForecastResult :=
  if data.dates.length < 3 then .error .insufficientData
  else .ok (forecastStatistical (applyScenario scenario data) periods scenario
    confidence now)

/-! ## Trend analyzer (`trend_analyzer.py`) -/

/-- Enum `TrendDirection`. -/
inductive TrendDirection
  | increasing
  | decreasing
  | stable
  | volatile
  deriving DecidableEq

/-- Enum `SeasonalPattern` (only `NONE` and `MONTHLY` are ever produced). -/
inductive SeasonalPattern
  | noSeason
  | monthly
  deriving DecidableEq

/-- The regression abscissae `x = np.array(range(n))` of `_analyze_trend`. -/
def ixList (values : List ℝ) : List ℝ :=
  (List.range values.length).map (fun i => (i : ℝ))

/-- Line `numerator = np.sum((x - x_mean) * (y - y_mean))`. -/
def ixNum (values : List ℝ) : ℝ :=
  ((ixList values).zip values).map
    (fun p => (p.1 - listMean (ixList values)) * (p.2 - listMean values)) |>.sum

/-- Line `denominator = np.sum((x - x_mean) ** 2)`. -/
def ixDenom (values : List ℝ) : ℝ :=
  ((ixList values).map (fun x => (x - listMean (ixList values)) ^ 2)).sum

/-- The regression slope `numerator / denominator`. -/
def slopeOf (values : List ℝ) : ℝ := ixNum values / ixDenom values

/-- Method `_analyze_trend(values) -> (direction, slope, r_squared)`. -/
def analyzeTrend (values : List ℝ) : TrendDirection × ℝ × ℝ :=
  if ixDenom values = 0 then (.stable, 0, 0)
  else
    let yMean := listMean values
    let slope := slopeOf values
    let intercept := yMean - slope * listMean (ixList values)
    let yPred := (ixList values).map (fun x => slope * x + intercept)
    let ssRes := ((values.zip yPred).map (fun p => (p.1 - p.2) ^ 2)).sum
    let ssTot := ((values.map (fun y => (y - yMean) ^ 2))).sum
    let rSquared := if 0 < ssTot then 1 - ssRes / ssTot else 0
    let volatility := if yMean ≠ 0 then npStd values / |yMean| else 0
    let direction : TrendDirection :=
      if 0.3 < volatility then .volatile
      else if |slope| < |yMean| * 0.01 then .stable
      else if 0 < slope then .increasing
      else .decreasing
    (direction, slope, rSquared)

/-- The distinct calendar months represented in `zip(dates, values)`
(the keys of `months_data`, as a list; the dict's insertion order is
irrelevant to every quantity derived from it). -/
def seasonKeys (values : List ℝ) (months : List ℕ) : List ℕ :=
  ((months.zip values).map (fun p => p.1)).dedup

/-- The per-month factor list: for each represented month, the mean of
that month's values divided by the overall mean
(`monthly_factors[month] = np.mean(month_values) / mean_val`). -/
def seasonFactors (values : List ℝ) (months : List ℕ) : List (ℕ × ℝ) :=
  (seasonKeys values months).map (fun m =>
    (m, listMean ((months.zip values).filterMap
          (fun p => if p.1 = m then some p.2 else none)) / listMean values))

/-- Line `factor_variance = np.var(list(monthly_factors.values()))`. -/
def seasonFactorVar (values : List ℝ) (months : List ℕ) : ℝ :=
  listVar ((seasonFactors values months).map (fun p => p.2))

/-- Method `_detect_seasonality(values, dates)`: dates enter only through their
calendar month, so the date list is modelled as the list of months. -/
def detectSeasonality (values : List ℝ) (months : List ℕ) (minPeriods : ℕ) :
    SeasonalPattern × List (ℕ × ℝ) :=
  if values.length < minPeriods then (.noSeason, [])
  else if listMean values = 0 then (.noSeason, [])
  else if 4 ≤ (seasonKeys values months).length then
    if 0.01 < seasonFactorVar values months then
      (.monthly, seasonFactors values months)
    else (.noSeason, [])
  else (.noSeason, [])

/-! ## Lemmas about rounding and the confidence half-width -/

theorem round2_mono {x y : ℝ} (h : x ≤ y) : round2 x ≤ round2 y := by
  unfold round2
  have hr : round (100 * x) ≤ round (100 * y) := by
    rw [round_eq, round_eq]
    exact Int.floor_mono (by linarith)
  have hc : ((round (100 * x) : ℤ) : ℝ) ≤ ((round (100 * y) : ℤ) : ℝ) :=
    Int.cast_le.mpr hr
  linarith

theorem abs_round2_sub (x : ℝ) : |round2 x - x| ≤ 1 / 200 := by
  unfold round2
  have h := abs_sub_round (α := ℝ) (100 * x)
  rw [abs_sub_comm] at h
  have hx : ((round (100 * x) : ℤ) : ℝ) / 100 - x
      = (((round (100 * x) : ℤ) : ℝ) - 100 * x) / 100 := by ring
  rw [hx, abs_div]
  rw [show |(100 : ℝ)| = 100 by norm_num]
  linarith

theorem zScore_nonneg (c : ℝ) : 0 ≤ zScore c := by
  unfold zScore; split <;> norm_num

theorem forecastStd_nonneg (l : List ℝ) (w : ℝ) : 0 ≤ forecastStd l w := by
  unfold forecastStd
  split
  · exact Real.sqrt_nonneg _
  · positivity

theorem intervalWidth_nonneg {z std : ℝ} (hz : 0 ≤ z) (hs : 0 ≤ std) (i : ℕ) :
    0 ≤ intervalWidth z std i :=
  mul_nonneg (mul_nonneg hz hs) (Real.sqrt_nonneg _)

theorem intervalWidth_mono {z std : ℝ} (hz : 0 ≤ z) (hs : 0 ≤ std) {i j : ℕ}
    (h : i ≤ j) : intervalWidth z std i ≤ intervalWidth z std j := by
  unfold intervalWidth
  have hij : ((i : ℝ) + 1) ≤ ((j : ℝ) + 1) := by
    have : (i : ℝ) ≤ (j : ℝ) := Nat.cast_le.mpr h
    linarith
  exact mul_le_mul_of_nonneg_left (Real.sqrt_le_sqrt hij) (mul_nonneg hz hs)

/-! ## Structure of the forecast rows -/

theorem forecastRows_length (L : ℤ) (w z s : ℝ) :
    ∀ (c : ℝ) (i n : ℕ), (forecastRows L w z s c i n).length = n
  | _, _, 0 => rfl
  | c, i, n + 1 => by
    simp [forecastRows, forecastRows_length L w z s (c + w) (i + 1) n]

theorem forecastRows_getD (L : ℤ) (w z s : ℝ) :
    ∀ (c : ℝ) (i k n : ℕ), k < n →
      (forecastRows L w z s c i n).getD k (0, 0, 0, 0) =
        (L + 30 * ((i : ℤ) + (k : ℤ) + 1), round2 (c + ((k : ℝ) + 1) * w),
          round2 (c + ((k : ℝ) + 1) * w - intervalWidth z s (i + k)),
          round2 (c + ((k : ℝ) + 1) * w + intervalWidth z s (i + k)))
  | c, i, 0, n + 1, _ => by
    simp only [forecastRows, List.getD_cons_zero]
    norm_num
  | c, i, k + 1, n + 1, hk => by
    have ih := forecastRows_getD L w z s (c + w) (i + 1) k n (by omega)
    simp only [forecastRows, List.getD_cons_succ]
    rw [ih]
    refine congrArg₂ Prod.mk (by push_cast; ring) (congrArg₂ Prod.mk ?_ ?_)
    · exact congrArg round2 (by push_cast; ring)
    · rw [show i + 1 + k = i + (k + 1) by omega]
      exact congrArg₂ Prod.mk (congrArg round2 (by push_cast; ring))
        (congrArg round2 (by push_cast; ring))

/-! ## Field projections of a statistical forecast -/

theorem forecastStatistical_dates_getD (data : CashFlowData) (p : ℕ)
    (s : Scenario) (conf : ℝ) (now : ℤ) {i : ℕ} (hi : i < p) :
    (forecastStatistical data p s conf now).forecast_dates.getD i 0 =
      lastDateOf data + 30 * ((i : ℤ) + 1) := by
  unfold forecastStatistical
  simp only
  rw [show (0 : ℤ) = ((0, 0, 0, 0) : ℤ × ℝ × ℝ × ℝ).1 from rfl, List.getD_map,
    forecastRows_getD _ _ _ _ _ _ _ _ hi]
  norm_num

theorem forecastStatistical_predicted_getD (data : CashFlowData) (p : ℕ)
    (s : Scenario) (conf : ℝ) (now : ℤ) {i : ℕ} (hi : i < p) :
    (forecastStatistical data p s conf now).predicted_cash.getD i 0 =
      round2 (lastCashOf data + ((i : ℝ) + 1) * wavgOf data) := by
  unfold forecastStatistical
  simp only
  rw [show (0 : ℝ) = ((0, 0, 0, 0) : ℤ × ℝ × ℝ × ℝ).2.1 from rfl, List.getD_map,
    forecastRows_getD _ _ _ _ _ _ _ _ hi]

theorem forecastStatistical_lower_getD (data : CashFlowData) (p : ℕ)
    (s : Scenario) (conf : ℝ) (now : ℤ) {i : ℕ} (hi : i < p) :
    (forecastStatistical data p s conf now).lower_bound.getD i 0 =
      round2 (lastCashOf data + ((i : ℝ) + 1) * wavgOf data -
        intervalWidth (zScore conf) (stdOf data) i) := by
  unfold forecastStatistical
  simp only
  rw [show (0 : ℝ) = ((0, 0, 0, 0) : ℤ × ℝ × ℝ × ℝ).2.2.1 from rfl, List.getD_map,
    forecastRows_getD _ _ _ _ _ _ _ _ hi]
  norm_num

theorem forecastStatistical_upper_getD (data : CashFlowData) (p : ℕ)
    (s : Scenario) (conf : ℝ) (now : ℤ) {i : ℕ} (hi : i < p) :
    (forecastStatistical data p s conf now).upper_bound.getD i 0 =
      round2 (lastCashOf data + ((i : ℝ) + 1) * wavgOf data +
        intervalWidth (zScore conf) (stdOf data) i) := by
  unfold forecastStatistical
  simp only
  rw [show (0 : ℝ) = ((0, 0, 0, 0) : ℤ × ℝ × ℝ × ℝ).2.2.2 from rfl, List.getD_map,
    forecastRows_getD _ _ _ _ _ _ _ _ hi]
  norm_num

/-- C1: for every historical series of length at least 3, every periods
count at least 1 and every recognized scenario, the statistical `forecast`
succeeds and, at every horizon index, the rounded lower bound is at most
the rounded point estimate, which is at most the rounded upper bound. -/
theorem C1_bounds_bracket_predicted (data : CashFlowData) (p : ℕ) (s : Scenario)
    (conf : ℝ) (now : ℤ) (hlen : 3 ≤ data.dates.length) (hp : 1 ≤ p)
    (hs : s ≠ Scenario.other) :
    ∃ r, forecast data p s conf now = Except.ok r ∧
      ∀ i, i < p → r.lower_bound.getD i 0 ≤ r.predicted_cash.getD i 0 ∧
        r.predicted_cash.getD i 0 ≤ r.upper_bound.getD i 0 := by
  have hok : forecast data p s conf now =
      Except.ok (forecastStatistical (applyScenario s data) p s conf now) := by
    unfold forecast
    rw [if_neg (by omega)]
  refine ⟨_, hok, ?_⟩
  intro i hi
  set D := applyScenario s data
  have hw : 0 ≤ intervalWidth (zScore conf) (stdOf D) i :=
    intervalWidth_nonneg (zScore_nonneg conf)
      (forecastStd_nonneg (netCashFlow D) (wavgOf D)) i
  rw [forecastStatistical_lower_getD D p s conf now hi,
    forecastStatistical_predicted_getD D p s conf now hi,
    forecastStatistical_upper_getD D p s conf now hi]
  constructor
  · exact round2_mono (by linarith)
  · exact round2_mono (by linarith)

/-! ## Evaluation helpers for rounding and truncation -/

theorem round2_eval {x y : ℝ} (z : ℤ) (h1 : (z : ℝ) ≤ 100 * x + 1 / 2)
    (h2 : 100 * x + 1 / 2 < (z : ℝ) + 1) (hy : ((z : ℝ)) / 100 = y) :
    round2 x = y := by
  unfold round2
  rw [round_eq, Int.floor_eq_iff.mpr ⟨h1, by exact_mod_cast h2⟩, hy]

theorem pyInt_nonneg_eval {x : ℝ} {z : ℤ} (h0 : 0 ≤ x) (h1 : (z : ℝ) ≤ x)
    (h2 : x < (z : ℝ) + 1) : pyInt x = z := by
  unfold pyInt
  rw [if_pos h0]
  exact Int.floor_eq_iff.mpr ⟨h1, by exact_mod_cast h2⟩

theorem intervalWidth_zero_std (z : ℝ) (i : ℕ) : intervalWidth z 0 i = 0 := by
  simp [intervalWidth]

/-! ## Lemmas about the runway scan -/

theorem runwayScanAux_cons_pos {cash : ℝ} (h : 0 < cash) (now : ℤ) (pc : ℝ)
    (pd date : ℤ) (i : ℕ) (rest : List (ℝ × ℤ)) :
    runwayScanAux now pc pd i ((cash, date) :: rest) =
      runwayScanAux now cash date (i + 1) rest := by
  simp only [runwayScanAux]
  rw [if_neg (by linarith)]

theorem runwayScanAux_cons_zeroIdx {cash : ℝ} (h : cash ≤ 0) (now : ℤ)
    (pc : ℝ) (pd date : ℤ) (rest : List (ℝ × ℤ)) :
    runwayScanAux now pc pd 0 ((cash, date) :: rest) =
      some (0, some date) := by
  simp only [runwayScanAux]
  rw [if_pos h, if_neg (by omega)]
  norm_num

theorem runwayScanAux_cons_cross {cash pc : ℝ} (h : cash ≤ 0) (hne : pc ≠ cash)
    (now : ℤ) (pd date : ℤ) {i : ℕ} (hi : 0 < i) (rest : List (ℝ × ℤ)) :
    runwayScanAux now pc pd i ((cash, date) :: rest) =
      some (max 0
          ((((pd + pyInt (((date - pd : ℤ) : ℝ) * (pc / (pc - cash)))) - now : ℤ) : ℝ) / 30),
        some (pd + pyInt (((date - pd : ℤ) : ℝ) * (pc / (pc - cash))))) := by
  simp only [runwayScanAux]
  rw [if_pos h, if_pos hi, if_pos hne]

theorem runwayScanAux_snd_eq (n₁ n₂ : ℤ) :
    ∀ (pc : ℝ) (pd : ℤ) (i : ℕ) (L : List (ℝ × ℤ)),
      (runwayScanAux n₁ pc pd i L).map (fun x => x.2) =
        (runwayScanAux n₂ pc pd i L).map (fun x => x.2)
  | _, _, _, [] => rfl
  | pc, pd, i, (cash, date) :: rest => by
    by_cases h : cash ≤ 0
    · simp only [runwayScanAux, if_pos h, Option.map_some']
      congr 1
      split
      · split <;> rfl
      · rfl
    · rw [runwayScanAux_cons_pos (by linarith) n₁,
        runwayScanAux_cons_pos (by linarith) n₂]
      exact runwayScanAux_snd_eq n₁ n₂ cash date (i + 1) rest

theorem calculateRunway_snd_eq (c : ℝ) (f : List ℝ) (d : List ℤ) (n₁ n₂ : ℤ) :
    (calculateRunway c f d n₁).2 = (calculateRunway c f d n₂).2 := by
  unfold calculateRunway
  have h := runwayScanAux_snd_eq n₁ n₂ c 0 0 (f.zip d)
  cases h1 : runwayScanAux n₁ c 0 0 (f.zip d) <;>
    cases h2 : runwayScanAux n₂ c 0 0 (f.zip d) <;>
      rw [h1, h2] at h <;> simp_all

/-- A forecast with its wall-clock-dependent `runway_months` field blanked. -/
def stripRunway (r : ForecastResult) : ForecastResult := { r with runway_months := 0 }

/-- C2 (amended): the function `forecast` is a pure function of its inputs in every
field except `runway_months`: two invocations at different wall-clock
times agree on the forecast dates, predicted cash, bounds, confidence,
zero-cash date, scenario, model type and metrics. -/
theorem C2_pure_except_runway (data : CashFlowData) (p : ℕ) (s : Scenario)
    (conf : ℝ) (n₁ n₂ : ℤ) :
    (forecast data p s conf n₁).map stripRunway =
      (forecast data p s conf n₂).map stripRunway := by
  unfold forecast
  split
  · rfl
  · simp only [Except.map]
    congr 1
    unfold stripRunway forecastStatistical
    simp only [ForecastResult.mk.injEq, true_and, and_true]
    exact calculateRunway_snd_eq _ _ _ n₁ n₂

/-! ## A concrete declining series (used as a shared counterexample input)

Dates at days 30/60/90, no inflows, a constant 20 of outflow per period,
balances consistently declining 70 → 50 → 30.  All net flows are equal,
so the standard deviation is 0 and the two confidence bounds coincide
with the point estimate. -/

def declineData : CashFlowData :=
  { dates := [30, 60, 90]
    cash_inflows := [0, 0, 0]
    cash_outflows := [20, 20, 20]
    cash_balances := [70, 50, 30] }

theorem declineData_net : netCashFlow declineData = [-20, -20, -20] := by
  norm_num [netCashFlow, declineData]

theorem declineData_wavg : wavgOf declineData = -20 := by
  rw [wavgOf, declineData_net]
  norm_num [weightedMovingAvg, List.range_succ]

theorem declineData_std : stdOf declineData = 0 := by
  rw [stdOf, declineData_net, declineData_wavg]
  rw [forecastStd, if_pos (by norm_num)]
  have hv : listVar [(-20 : ℝ), -20, -20] = 0 := by
    norm_num [listVar, listMean]
  rw [npStd, hv, Real.sqrt_zero]

theorem declineData_rows (conf : ℝ) :
    forecastRows (lastDateOf declineData) (wavgOf declineData) (zScore conf)
      (stdOf declineData) (lastCashOf declineData) 0 2 =
      [(120, 10, 10, 10), (150, -10, -10, -10)] := by
  rw [declineData_wavg, declineData_std]
  have hd : lastDateOf declineData = 90 := by norm_num [lastDateOf, declineData]
  have hc : lastCashOf declineData = 30 := by norm_num [lastCashOf, declineData]
  rw [hd, hc]
  simp only [forecastRows, intervalWidth_zero_std]
  have h1 : round2 10 = 10 := round2_eval 1000 (by norm_num) (by norm_num) (by norm_num)
  have h2 : round2 (-10) = -10 := round2_eval (-1000) (by norm_num) (by norm_num) (by norm_num)
  norm_num [h1, h2]

theorem declineData_statistical (conf : ℝ) (now : ℤ) :
    forecastStatistical declineData 2 Scenario.baseline conf now =
      { forecast_dates := [120, 150]
        predicted_cash := [10, -10]
        lower_bound := [10, -10]
        upper_bound := [10, -10]
        confidence_level := conf
        runway_months := max 0 (((135 - now : ℤ) : ℝ) / 30)
        zero_cash_date := some 135
        scenario := Scenario.baseline
        model_type := "statistical"
        metrics :=
          { weighted_avg_flow := -20
            std_dev := 0
            historical_periods := 3
            forecast_periods := 2 } } := by
  unfold forecastStatistical
  have hrun : calculateRunway (lastCashOf declineData) [10, -10] [120, 150] now =
      (max 0 (((135 - now : ℤ) : ℝ) / 30), some 135) := by
    have hc : lastCashOf declineData = 30 := by norm_num [lastCashOf, declineData]
    rw [hc]
    unfold calculateRunway
    rw [show ([(10 : ℝ), -10].zip [(120 : ℤ), 150]) =
      [((10 : ℝ), (120 : ℤ)), ((-10 : ℝ), (150 : ℤ))] from rfl]
    rw [runwayScanAux_cons_pos (by norm_num), runwayScanAux_cons_cross (by norm_num)
      (by norm_num) now 120 150 (by norm_num)]
    have hpy : pyInt ((((150 : ℤ) - 120 : ℤ) : ℝ) * ((10 : ℝ) / (10 - -10))) = 15 := by
      refine pyInt_nonneg_eval (by norm_num) (by norm_num) (by norm_num)
    rw [hpy]
    norm_num
  have hwm : round2 (wavgOf declineData) = -20 := by
    rw [declineData_wavg]
    exact round2_eval (-2000) (by norm_num) (by norm_num) (by norm_num)
  have hsm : round2 (stdOf declineData) = 0 := by
    rw [declineData_std]
    exact round2_eval 0 (by norm_num) (by norm_num) (by norm_num)
  simp only [declineData_rows conf, List.map_cons, List.map_nil, hrun, hwm, hsm]
  norm_num [declineData, ForecastResult.mk.injEq, ForecastMetrics.mk.injEq]

/-- C2 (counterexample): with the projected balance crossing zero at the
second horizon step, the reported `runway_months` of two invocations of
`forecast` on identical inputs differs when the wall clock differs —
`forecast` is not a pure function of its declared inputs. -/
theorem C2_counterexample :
    (forecast declineData 2 Scenario.baseline 0.8 90).map
        (fun r => r.runway_months) = Except.ok 1.5 ∧
      (forecast declineData 2 Scenario.baseline 0.8 135).map
        (fun r => r.runway_months) = Except.ok 0 ∧ (1.5 : ℝ) ≠ 0 := by
  have hfore : ∀ now : ℤ, forecast declineData 2 Scenario.baseline 0.8 now =
      Except.ok (forecastStatistical declineData 2 Scenario.baseline 0.8 now) := by
    intro now
    unfold forecast
    rw [if_neg (by norm_num [declineData]),
      show applyScenario Scenario.baseline declineData = declineData from rfl]
  refine ⟨?_, ?_, by norm_num⟩
  · rw [hfore 90, declineData_statistical 0.8 90]
    simp only [Except.map, Except.ok.injEq]
    rw [show ((135 - 90 : ℤ) : ℝ) / 30 = 1.5 by norm_num]
    exact max_eq_right (by norm_num)
  · rw [hfore 135, declineData_statistical 0.8 135]
    simp only [Except.map, Except.ok.injEq]
    norm_num

/-- C10: with at least 3 historical periods, asking for 0 forecast periods
does not fail: all four projection lists are empty, the runway is 0 months
(the scan returns `len(forecast) = 0`), and there is no zero-cash date. -/
theorem C10_zero_periods (data : CashFlowData) (s : Scenario) (conf : ℝ)
    (now : ℤ) (h : 3 ≤ data.dates.length) :
    (forecast data 0 s conf now).map (fun r =>
      (r.forecast_dates, r.predicted_cash, r.lower_bound, r.upper_bound,
        r.runway_months, r.zero_cash_date)) =
      Except.ok ([], [], [], [], 0, none) := by
  unfold forecast
  rw [if_neg (by omega)]
  simp only [Except.map]
  unfold forecastStatistical
  simp only [forecastRows, List.map_nil]
  norm_num [calculateRunway, runwayScanAux, List.zip]

theorem C10_zero_periods_witness :
    (forecast declineData 0 Scenario.baseline 0.8 0).map (fun r =>
      (r.forecast_dates, r.predicted_cash, r.lower_bound, r.upper_bound,
        r.runway_months, r.zero_cash_date)) =
      Except.ok ([], [], [], [], 0, none) :=
  C10_zero_periods declineData Scenario.baseline 0.8 0 (by decide)

/-- A forecast with the echoed scenario tag blanked to `baseline`. -/
def stripScenario (r : ForecastResult) : ForecastResult :=
  { r with scenario := Scenario.baseline }

/-- C5 (amended): an unrecognized scenario tag does not raise any error:
`_apply_scenario` falls through to its final `else` and returns the data
unchanged, so `forecast` succeeds and agrees with the Baseline forecast
in every field except the echoed scenario tag. -/
theorem C5_unknown_scenario_is_baseline (data : CashFlowData) (p : ℕ)
    (conf : ℝ) (now : ℤ) :
    applyScenario Scenario.other data = data ∧
      (forecast data p Scenario.other conf now).map stripScenario =
        (forecast data p Scenario.baseline conf now).map stripScenario := by
  refine ⟨rfl, ?_⟩
  unfold forecast
  split <;> rfl

/-- C5 (counterexample): on a valid 3-period series, `forecast` under an
unrecognized scenario tag returns a result — it does not fail with an
`InvalidScenario` error. -/
theorem C5_counterexample :
    (forecast declineData 2 Scenario.other 0.8 0).map (fun _ => ()) =
      Except.ok () := by
  unfold forecast
  rw [if_neg (by norm_num [declineData])]
  rfl

/-! ## Where the runway scan first crosses zero -/

theorem calculateRunway_cross0 (c : ℝ) (f : List ℝ) (d : List ℤ) (now : ℤ)
    (hf : 0 < f.length) (hd : 0 < d.length) (h : f.getD 0 0 ≤ 0) :
    calculateRunway c f d now = (0, some (d.getD 0 0)) := by
  cases f with
  | nil => simp at hf
  | cons a f' =>
    cases d with
    | nil => simp at hd
    | cons x d' =>
      unfold calculateRunway
      rw [show ((a :: f').zip (x :: d')) = (a, x) :: (f'.zip d') from rfl,
        runwayScanAux_cons_zeroIdx (by simpa using h)]
      rfl

theorem runwayScanAux_cross (now : ℤ) (m : ℕ) :
    ∀ (f : List ℝ) (d : List ℤ) (i0 : ℕ) (pc : ℝ) (pd : ℤ),
      m + 1 < f.length → d.length = f.length →
      (∀ j, j < m + 1 → 0 < f.getD j 0) → f.getD (m + 1) 0 ≤ 0 →
      runwayScanAux now pc pd i0 (f.zip d) =
        some (max 0
            ((((d.getD m 0 + pyInt (((d.getD (m + 1) 0 - d.getD m 0 : ℤ) : ℝ) *
                  (f.getD m 0 / (f.getD m 0 - f.getD (m + 1) 0)))) - now : ℤ) : ℝ) / 30),
          some (d.getD m 0 + pyInt (((d.getD (m + 1) 0 - d.getD m 0 : ℤ) : ℝ) *
            (f.getD m 0 / (f.getD m 0 - f.getD (m + 1) 0))))) := by
  induction m with
  | zero =>
    intro f d i0 pc pd h1 h2 hpos hneg
    match f, d with
    | [], _ => simp at h1
    | [a], _ => simp at h1
    | a :: b :: f, [] => simp at h2
    | a :: b :: f, [x] => simp at h2
    | a :: b :: f, x :: y :: d =>
      have ha : 0 < a := by simpa using hpos 0 (by omega)
      have hb : b ≤ 0 := by simpa using hneg
      rw [show ((a :: b :: f).zip (x :: y :: d)) = (a, x) :: ((b :: f).zip (y :: d))
          from rfl,
        runwayScanAux_cons_pos ha,
        show ((b :: f).zip (y :: d)) = (b, y) :: (f.zip d) from rfl,
        runwayScanAux_cons_cross hb (by intro hab; rw [hab] at ha; linarith)
          now x y (by omega)]
      simp
  | succ m ih =>
    intro f d i0 pc pd h1 h2 hpos hneg
    match f, d with
    | [], _ => simp at h1
    | a :: f, [] => simp at h2
    | a :: f, x :: d =>
      have ha : 0 < a := by simpa using hpos 0 (by omega)
      rw [show ((a :: f).zip (x :: d)) = (a, x) :: (f.zip d) from rfl,
        runwayScanAux_cons_pos ha]
      have := ih f d (i0 + 1) a x (by simpa using h1) (by simpa using h2)
        (fun j hj => by simpa using hpos (j + 1) (by omega))
        (by simpa using hneg)
      simpa using this

theorem calculateRunway_cross (c : ℝ) (f : List ℝ) (d : List ℤ) (now : ℤ)
    (m : ℕ) (h1 : m + 1 < f.length) (h2 : d.length = f.length)
    (hpos : ∀ j, j < m + 1 → 0 < f.getD j 0) (hneg : f.getD (m + 1) 0 ≤ 0) :
    calculateRunway c f d now = (max 0
        ((((d.getD m 0 + pyInt (((d.getD (m + 1) 0 - d.getD m 0 : ℤ) : ℝ) *
              (f.getD m 0 / (f.getD m 0 - f.getD (m + 1) 0)))) - now : ℤ) : ℝ) / 30),
      some (d.getD m 0 + pyInt (((d.getD (m + 1) 0 - d.getD m 0 : ℤ) : ℝ) *
        (f.getD m 0 / (f.getD m 0 - f.getD (m + 1) 0))))) := by
  unfold calculateRunway
  rw [runwayScanAux_cross now m f d 0 c 0 h1 h2 hpos hneg]
  rfl

theorem forecastStatistical_predicted_length (data : CashFlowData) (p : ℕ)
    (s : Scenario) (conf : ℝ) (now : ℤ) :
    (forecastStatistical data p s conf now).predicted_cash.length = p := by
  unfold forecastStatistical
  simp [forecastRows_length]

theorem forecastStatistical_dates_length (data : CashFlowData) (p : ℕ)
    (s : Scenario) (conf : ℝ) (now : ℤ) :
    (forecastStatistical data p s conf now).forecast_dates.length = p := by
  unfold forecastStatistical
  simp [forecastRows_length]

theorem forecastStatistical_runway_pair (data : CashFlowData) (p : ℕ)
    (s : Scenario) (conf : ℝ) (now : ℤ) :
    ((forecastStatistical data p s conf now).runway_months,
      (forecastStatistical data p s conf now).zero_cash_date) =
      calculateRunway (lastCashOf data)
        (forecastStatistical data p s conf now).predicted_cash
        (forecastStatistical data p s conf now).forecast_dates now := rfl

/-- C3 (amended): when the projected (rounded) balance sequence first
reaches a nonpositive value at horizon index `i ≥ 1`, the zero-cash date
is obtained by linear interpolation between the previous projected point
and the crossing point: it equals `dates[i-1] + int(30 * prev/(prev-cash))`,
lies between the two bracketing forecast dates, and is within one day of
the exact interpolated value.  When the crossing is already at index
`i = 0`, no interpolation happens (the branch interpolating from the last
historical balance is dead code): the zero-cash date is simply the first
forecast date, 30 days after the last historical date, and the runway is
reported as 0. -/
theorem C3_zero_cash_interpolation (data : CashFlowData) (p : ℕ) (s : Scenario)
    (conf : ℝ) (now : ℤ) (i : ℕ) (hi : i < p) (r : ForecastResult)
    (hr : forecast data p s conf now = Except.ok r)
    (hpos : ∀ j, j < i → 0 < r.predicted_cash.getD j 0)
    (hneg : r.predicted_cash.getD i 0 ≤ 0) :
    (i = 0 → r.zero_cash_date = some (r.forecast_dates.getD 0 0) ∧
      r.runway_months = 0) ∧
    (1 ≤ i →
      r.zero_cash_date = some (r.forecast_dates.getD (i - 1) 0 +
        pyInt (30 * (r.predicted_cash.getD (i - 1) 0 /
          (r.predicted_cash.getD (i - 1) 0 - r.predicted_cash.getD i 0)))) ∧
      ∀ z, r.zero_cash_date = some z →
        r.forecast_dates.getD (i - 1) 0 ≤ z ∧ z ≤ r.forecast_dates.getD i 0 ∧
        |(z : ℝ) - ((r.forecast_dates.getD (i - 1) 0 : ℝ) +
          30 * (r.predicted_cash.getD (i - 1) 0 /
            (r.predicted_cash.getD (i - 1) 0 - r.predicted_cash.getD i 0)))| < 1) := by
  have hr' : r = forecastStatistical (applyScenario s data) p s conf now := by
    unfold forecast at hr
    split at hr
    · exact absurd hr (by simp)
    · exact (Except.ok.inj hr).symm
  subst hr'
  set D := applyScenario s data with hD
  set R := forecastStatistical D p s conf now with hR
  have hplen : R.predicted_cash.length = p :=
    forecastStatistical_predicted_length D p s conf now
  have hdlen : R.forecast_dates.length = R.predicted_cash.length := by
    rw [hplen]; exact forecastStatistical_dates_length D p s conf now
  constructor
  · rintro rfl
    have h0 := calculateRunway_cross0 (lastCashOf D) R.predicted_cash
      R.forecast_dates now (by omega) (by omega) hneg
    have hpair := forecastStatistical_runway_pair D p s conf now
    rw [← hR] at hpair
    rw [h0] at hpair
    exact ⟨congrArg Prod.snd hpair, congrArg Prod.fst hpair⟩
  · intro h1
    obtain ⟨m, rfl⟩ : ∃ m, i = m + 1 := ⟨i - 1, by omega⟩
    simp only [Nat.add_sub_cancel]
    set prev := R.predicted_cash.getD m 0 with hprev
    set cash := R.predicted_cash.getD (m + 1) 0 with hcash
    have hprevPos : 0 < prev := hpos m (by omega)
    have hdiffPos : 0 < prev - cash := by linarith
    have hratio0 : 0 < prev / (prev - cash) := div_pos hprevPos hdiffPos
    have hratio1 : prev / (prev - cash) ≤ 1 := by
      rw [div_le_one hdiffPos]; linarith
    have hdm : R.forecast_dates.getD m 0 = lastDateOf D + 30 * ((m : ℤ) + 1) :=
      forecastStatistical_dates_getD D p s conf now (by omega)
    have hdm1 : R.forecast_dates.getD (m + 1) 0 =
        lastDateOf D + 30 * (((m + 1 : ℕ) : ℤ) + 1) :=
      forecastStatistical_dates_getD D p s conf now (by omega)
    have hdd : R.forecast_dates.getD (m + 1) 0 - R.forecast_dates.getD m 0 = 30 := by
      rw [hdm, hdm1]; push_cast; ring
    have hcr := calculateRunway_cross (lastCashOf D) R.predicted_cash
      R.forecast_dates now m (by omega) hdlen hpos hneg
    rw [hdd] at hcr
    have hpair := forecastStatistical_runway_pair D p s conf now
    rw [← hR] at hpair
    rw [hcr] at hpair
    have hzc := congrArg Prod.snd hpair
    simp only at hzc
    rw [show (((30 : ℤ) : ℝ)) = (30 : ℝ) from by norm_num] at hzc
    refine ⟨hzc, ?_⟩
    intro z hz
    rw [hzc] at hz
    have hz' := Option.some.inj hz
    subst hz'
    set x : ℝ := 30 * (prev / (prev - cash)) with hx
    have hx0 : 0 ≤ x := by positivity
    have hx30 : x ≤ 30 := by
      rw [hx]
      nlinarith
    have hpy : pyInt x = ⌊x⌋ := by unfold pyInt; rw [if_pos hx0]
    have hfl0 : 0 ≤ ⌊x⌋ := Int.floor_nonneg.mpr hx0
    have hfl30 : ⌊x⌋ ≤ 30 := by
      have := (Int.floor_le x).trans hx30
      exact_mod_cast this
    refine ⟨?_, ?_, ?_⟩
    · rw [hpy]; omega
    · rw [hpy]
      have hdd' := hdd
      omega
    · rw [hpy]
      push_cast
      have hfl_le : (⌊x⌋ : ℝ) ≤ x := Int.floor_le x
      have hfl_gt : x - 1 < (⌊x⌋ : ℝ) := Int.sub_one_lt_floor x
      rw [abs_lt]
      constructor <;> nlinarith

/-- The concrete forecast of `declineData` (2 periods, baseline, 80%
confidence) at wall-clock day 0. -/
def declineResult : ForecastResult :=
  { forecast_dates := [120, 150]
    predicted_cash := [10, -10]
    lower_bound := [10, -10]
    upper_bound := [10, -10]
    confidence_level := 0.8
    runway_months := 4.5
    zero_cash_date := some 135
    scenario := Scenario.baseline
    model_type := "statistical"
    metrics :=
      { weighted_avg_flow := -20
        std_dev := 0
        historical_periods := 3
        forecast_periods := 2 } }

theorem forecast_declineData_eq :
    forecast declineData 2 Scenario.baseline 0.8 0 = Except.ok declineResult := by
  unfold forecast
  rw [if_neg (by norm_num [declineData]),
    show applyScenario Scenario.baseline declineData = declineData from rfl,
    declineData_statistical 0.8 0]
  have hmax : max (0 : ℝ) (((135 - 0 : ℤ) : ℝ) / 30) = 4.5 := by
    rw [show ((135 - 0 : ℤ) : ℝ) / 30 = 4.5 by norm_num]
    exact max_eq_right (by norm_num)
  unfold declineResult
  rw [hmax]

theorem C3_zero_cash_interpolation_witness :
    declineResult.zero_cash_date =
      some (declineResult.forecast_dates.getD 0 0 +
        pyInt (30 * (declineResult.predicted_cash.getD 0 0 /
          (declineResult.predicted_cash.getD 0 0 -
            declineResult.predicted_cash.getD 1 0)))) ∧
    ∀ z, declineResult.zero_cash_date = some z →
      declineResult.forecast_dates.getD 0 0 ≤ z ∧
      z ≤ declineResult.forecast_dates.getD 1 0 ∧
      |(z : ℝ) - ((declineResult.forecast_dates.getD 0 0 : ℝ) +
        30 * (declineResult.predicted_cash.getD 0 0 /
          (declineResult.predicted_cash.getD 0 0 -
            declineResult.predicted_cash.getD 1 0)))| < 1 :=
  (C3_zero_cash_interpolation declineData 2 Scenario.baseline 0.8 0 1
    (by norm_num) declineResult forecast_declineData_eq
    (by
      intro j hj
      have hj0 : j = 0 := by omega
      subst hj0
      norm_num [declineResult])
    (by norm_num [declineResult])).2 (by norm_num)

/-- A 3-period series declining by a constant 20 per period whose first
projected balance is already nonpositive. -/
def decline2Data : CashFlowData :=
  { dates := [30, 60, 90]
    cash_inflows := [0, 0, 0]
    cash_outflows := [20, 20, 20]
    cash_balances := [50, 30, 10] }

/-- C3 (counterexample): for the constant-decline series 50/30/10 the
balances bracketing zero are the last historical one (10 at day 90) and
the first projected one (-10 at day 120), so the exact interpolated
zero-cash date is day 105; the code reports day 120 — 15 days off, far
outside the claimed one-day tolerance, because the `i == 0` crossing
skips interpolation entirely. -/
theorem C3_counterexample :
    (forecast decline2Data 2 Scenario.baseline 0.8 0).map
        (fun r => r.zero_cash_date) = Except.ok (some 120) ∧
      ¬ |((120 : ℤ) : ℝ) - ((90 : ℝ) + 30 * (10 / (10 - (-10 : ℝ))))| ≤ 1 := by
  constructor
  · have hwavg : wavgOf decline2Data = -20 := by
      rw [wavgOf, show netCashFlow decline2Data = [-20, -20, -20] from by
        norm_num [netCashFlow, decline2Data]]
      norm_num [weightedMovingAvg, List.range_succ]
    have hcash : lastCashOf decline2Data = 10 := by
      norm_num [lastCashOf, decline2Data]
    have hpred0 : (forecastStatistical decline2Data 2 Scenario.baseline
        0.8 0).predicted_cash.getD 0 0 = -10 := by
      rw [forecastStatistical_predicted_getD decline2Data 2 Scenario.baseline
        0.8 0 (show 0 < 2 by norm_num), hcash, hwavg]
      rw [show (10 : ℝ) + (((0 : ℕ) : ℝ) + 1) * (-20) = -10 by norm_num]
      exact round2_eval (-1000) (by norm_num) (by norm_num) (by norm_num)
    have hplen := forecastStatistical_predicted_length decline2Data 2
      Scenario.baseline 0.8 0
    have hdlen := forecastStatistical_dates_length decline2Data 2
      Scenario.baseline 0.8 0
    have h0 := calculateRunway_cross0 (lastCashOf decline2Data)
      (forecastStatistical decline2Data 2 Scenario.baseline 0.8 0).predicted_cash
      (forecastStatistical decline2Data 2 Scenario.baseline 0.8 0).forecast_dates
      0 (by omega) (by omega) (by rw [hpred0]; norm_num)
    have hpair := forecastStatistical_runway_pair decline2Data 2
      Scenario.baseline 0.8 0
    rw [h0] at hpair
    have hzc := congrArg Prod.snd hpair
    simp only at hzc
    have hd0 : (forecastStatistical decline2Data 2 Scenario.baseline
        0.8 0).forecast_dates.getD 0 0 = 120 := by
      rw [forecastStatistical_dates_getD decline2Data 2 Scenario.baseline
        0.8 0 (show 0 < 2 by norm_num)]
      norm_num [lastDateOf, decline2Data]
    unfold forecast
    rw [if_neg (by norm_num [decline2Data]),
      show applyScenario Scenario.baseline decline2Data = decline2Data from rfl]
    simp only [Except.map, Except.ok.injEq]
    rw [hzc, hd0]
  · rw [show ((120 : ℤ) : ℝ) - ((90 : ℝ) + 30 * (10 / (10 - (-10 : ℝ)))) = 15 by
      norm_num]
    rw [abs_of_nonneg (by norm_num)]
    norm_num

theorem C1_bounds_bracket_predicted_witness :
    declineResult.lower_bound.getD 0 0 ≤ declineResult.predicted_cash.getD 0 0 ∧
      declineResult.predicted_cash.getD 0 0 ≤ declineResult.upper_bound.getD 0 0 := by
  obtain ⟨r, hr, hb⟩ := C1_bounds_bracket_predicted declineData 2
    Scenario.baseline 0.8 0 (by decide) (by decide) (by decide)
  rw [forecast_declineData_eq] at hr
  have hr' : declineResult = r := Except.ok.inj hr
  rw [hr']
  exact hb 0 (by norm_num)

/-- C6 (amended): the forecaster never rejects a confidence level and has
no notion of the "nearer" supported level: the z-value is 1.28 exactly
when the confidence level equals 0.80 and 1.96 for every other value —
including levels closer to 0.80 than to 0.95. -/
theorem C6_z_score_selection :
    zScore 0.80 = 1.28 ∧ ∀ c : ℝ, c ≠ 0.80 → zScore c = 1.96 := by
  constructor
  · unfold zScore; rw [if_pos rfl]
  · intro c hc; unfold zScore; rw [if_neg hc]

theorem C6_z_score_selection_witness :
    zScore 0.80 = 1.28 ∧ zScore 0.5 = 1.96 :=
  ⟨C6_z_score_selection.1, C6_z_score_selection.2 0.5 (by norm_num)⟩

/-- A 4-period series with zero weighted-average flow and a net-flow
standard deviation of exactly 10. -/
def varData : CashFlowData :=
  { dates := [0, 30, 60, 90]
    cash_inflows := [10, 0, 0, 10]
    cash_outflows := [0, 10, 10, 0]
    cash_balances := [1000, 1000, 1000, 1000] }

/-- C6 (counterexample): a requested confidence level of 0.5 is nearer to
the supported 0.80 (distance 0.3) than to 0.95 (distance 0.45), so the
claim requires either a failure or the z-value 1.28; the code does
neither: the forecast succeeds and its first upper bound is
`1000 + 1.96 * 10 = 1019.6`, not the `1012.8` that z = 1.28 would give. -/
theorem C6_counterexample :
    (forecast varData 1 Scenario.baseline 0.5 0).map
        (fun r => r.upper_bound.getD 0 0) = Except.ok 1019.6 ∧
      (1019.6 : ℝ) ≠ 1012.8 := by
  refine ⟨?_, by norm_num⟩
  have hnet : netCashFlow varData = [10, -10, -10, 10] := by
    norm_num [netCashFlow, varData]
  have hwavg : wavgOf varData = 0 := by
    rw [wavgOf, hnet]
    norm_num [weightedMovingAvg, List.range_succ]
  have hstd : stdOf varData = 10 := by
    rw [stdOf, hnet]
    rw [forecastStd, if_pos (by norm_num)]
    rw [npStd, show listVar [(10 : ℝ), -10, -10, 10] = 100 from by
      norm_num [listVar, listMean]]
    rw [show (100 : ℝ) = 10 ^ 2 by norm_num, Real.sqrt_sq (by norm_num)]
  have hcash : lastCashOf varData = 1000 := by norm_num [lastCashOf, varData]
  have hwidth : intervalWidth (zScore 0.5) 10 0 = 19.6 := by
    rw [intervalWidth,
      show zScore 0.5 = 1.96 from by unfold zScore; rw [if_neg (by norm_num)],
      show (((0 : ℕ) : ℝ) + 1) = 1 by norm_num, Real.sqrt_one]
    norm_num
  have hup : (forecastStatistical varData 1 Scenario.baseline
      0.5 0).upper_bound.getD 0 0 = 1019.6 := by
    rw [forecastStatistical_upper_getD varData 1 Scenario.baseline 0.5 0
      (show 0 < 1 by norm_num), hcash, hwavg, hstd, hwidth]
    rw [show (1000 : ℝ) + (((0 : ℕ) : ℝ) + 1) * 0 + 19.6 = 1019.6 by norm_num]
    exact round2_eval 101960 (by norm_num) (by norm_num) (by norm_num)
  unfold forecast
  rw [if_neg (by norm_num [varData]),
    show applyScenario Scenario.baseline varData = varData from rfl]
  simp only [Except.map, Except.ok.injEq]
  exact hup

/-- C4 (amended): the unrounded confidence half-width
`z * std * sqrt(i+1)` is non-decreasing in the horizon index, and the
reported half-width `upper_bound[i] - predicted_cash[i]` agrees with it
to within the 0.01 granularity introduced by rounding each bound to two
decimals — it is the rounding, not the width formula, that can make the
reported half-width decrease (by at most 0.01) between indices. -/
theorem C4_halfwidth_monotone (data : CashFlowData) (p : ℕ) (s : Scenario)
    (conf : ℝ) (now : ℤ) :
    (∀ i j : ℕ, i ≤ j →
      intervalWidth (zScore conf) (stdOf (applyScenario s data)) i ≤
        intervalWidth (zScore conf) (stdOf (applyScenario s data)) j) ∧
    (∀ r, forecast data p s conf now = Except.ok r → ∀ i, i < p →
      |(r.upper_bound.getD i 0 - r.predicted_cash.getD i 0) -
        intervalWidth (zScore conf) (stdOf (applyScenario s data)) i| ≤
          1 / 100) := by
  constructor
  · intro i j hij
    exact intervalWidth_mono (zScore_nonneg conf)
      (forecastStd_nonneg _ _) hij
  · intro r hr i hi
    have hr' : r = forecastStatistical (applyScenario s data) p s conf now := by
      unfold forecast at hr
      split at hr
      · exact absurd hr (by simp)
      · exact (Except.ok.inj hr).symm
    subst hr'
    rw [forecastStatistical_upper_getD _ _ _ _ _ hi,
      forecastStatistical_predicted_getD _ _ _ _ _ hi]
    set c := lastCashOf (applyScenario s data) +
      ((i : ℝ) + 1) * wavgOf (applyScenario s data) with hc
    set w := intervalWidth (zScore conf) (stdOf (applyScenario s data)) i with hwdef
    obtain ⟨e1l, e1r⟩ := abs_le.mp (abs_round2_sub (c + w))
    obtain ⟨e2l, e2r⟩ := abs_le.mp (abs_round2_sub c)
    rw [abs_le]
    constructor <;> linarith

theorem C4_halfwidth_monotone_witness :
    intervalWidth (zScore 0.8) (stdOf (applyScenario Scenario.baseline
        declineData)) 0 ≤
      intervalWidth (zScore 0.8) (stdOf (applyScenario Scenario.baseline
        declineData)) 1 ∧
    |(declineResult.upper_bound.getD 0 0 - declineResult.predicted_cash.getD 0 0) -
      intervalWidth (zScore 0.8) (stdOf (applyScenario Scenario.baseline
        declineData)) 0| ≤ 1 / 100 :=
  ⟨(C4_halfwidth_monotone declineData 2 Scenario.baseline 0.8 0).1 0 1
      (by norm_num),
    (C4_halfwidth_monotone declineData 2 Scenario.baseline 0.8 0).2
      declineResult forecast_declineData_eq 0 (by norm_num)⟩

/-- A 4-period series engineered so that the net-flow standard deviation
is tiny (exactly 0.009375) and the projected cash sits just under the
rounding boundaries of the two-decimal bounds. -/
def jitterData : CashFlowData :=
  { dates := [0, 30, 60, 90]
    cash_inflows := [19 / 8000, -131 / 8000, -131 / 8000, 19 / 8000]
    cash_outflows := [0, 0, 0, 0]
    cash_balances := [0, 0, 0, 119 / 10000] }

/-- C4 (counterexample): on `jitterData` the reported rounded half-width
`upper_bound[i] - predicted_cash[i]` is 0.02 at horizon index 0 but 0.01
at index 1 — the rounded half-width strictly decreases, refuting the
claimed monotonicity of the reported (rounded) widths. -/
theorem C4_counterexample :
    (forecast jitterData 2 Scenario.baseline 0.8 0).map (fun r =>
      (r.upper_bound.getD 0 0 - r.predicted_cash.getD 0 0,
        r.upper_bound.getD 1 0 - r.predicted_cash.getD 1 0)) =
      Except.ok (0.02, 0.01) ∧ ¬ ((0.02 : ℝ) ≤ 0.01) := by
  refine ⟨?_, by norm_num⟩
  have hnet : netCashFlow jitterData =
      [19 / 8000, -131 / 8000, -131 / 8000, 19 / 8000] := by
    norm_num [netCashFlow, jitterData]
  have hwavg : wavgOf jitterData = -7 / 1000 := by
    rw [wavgOf, hnet]
    norm_num [weightedMovingAvg, List.range_succ]
  have hstd : stdOf jitterData = 3 / 320 := by
    rw [stdOf, hnet, forecastStd, if_pos (by norm_num)]
    rw [npStd, show listVar [(19 / 8000 : ℝ), -131 / 8000, -131 / 8000,
        19 / 8000] = 9 / 102400 from by norm_num [listVar, listMean]]
    rw [show (9 / 102400 : ℝ) = (3 / 320) ^ 2 by norm_num,
      Real.sqrt_sq (by norm_num)]
  have hcash : lastCashOf jitterData = 119 / 10000 := by
    norm_num [lastCashOf, jitterData]
  have hz : zScore 0.8 = 1.28 := by unfold zScore; rw [if_pos (by norm_num)]
  have hw0 : intervalWidth (zScore 0.8) (3 / 320) 0 = 12 / 1000 := by
    rw [intervalWidth, hz, show (((0 : ℕ) : ℝ) + 1) = 1 by norm_num,
      Real.sqrt_one]
    norm_num
  have hw1 : intervalWidth (zScore 0.8) (3 / 320) 1 =
      (12 / 1000) * Real.sqrt 2 := by
    rw [intervalWidth, hz, show (((1 : ℕ) : ℝ) + 1) = 2 by norm_num]
    norm_num
  have hs2l : (1.414 : ℝ) < Real.sqrt 2 :=
    (Real.lt_sqrt (by norm_num)).mpr (by norm_num)
  have hs2u : Real.sqrt 2 < 1.415 :=
    (Real.sqrt_lt' (by norm_num)).mpr (by norm_num)
  have hP0 : round2 (119 / 10000 + (((0 : ℕ) : ℝ) + 1) * (-7 / 1000)) = 0 :=
    round2_eval 0 (by norm_num) (by norm_num) (by norm_num)
  have hU0 : round2 (119 / 10000 + (((0 : ℕ) : ℝ) + 1) * (-7 / 1000) +
      intervalWidth (zScore 0.8) (3 / 320) 0) = 2 / 100 := by
    rw [hw0]
    exact round2_eval 2 (by norm_num) (by norm_num) (by norm_num)
  have hP1 : round2 (119 / 10000 + (((1 : ℕ) : ℝ) + 1) * (-7 / 1000)) = 0 :=
    round2_eval 0 (by norm_num) (by norm_num) (by norm_num)
  have hU1 : round2 (119 / 10000 + (((1 : ℕ) : ℝ) + 1) * (-7 / 1000) +
      intervalWidth (zScore 0.8) (3 / 320) 1) = 1 / 100 := by
    rw [hw1]
    exact round2_eval 1 (by nlinarith) (by nlinarith) (by norm_num)
  unfold forecast
  rw [if_neg (by norm_num [jitterData]),
    show applyScenario Scenario.baseline jitterData = jitterData from rfl]
  simp only [Except.map, Except.ok.injEq]
  rw [forecastStatistical_upper_getD jitterData 2 Scenario.baseline 0.8 0
      (show 0 < 2 by norm_num),
    forecastStatistical_predicted_getD jitterData 2 Scenario.baseline 0.8 0
      (show 0 < 2 by norm_num),
    forecastStatistical_upper_getD jitterData 2 Scenario.baseline 0.8 0
      (show 1 < 2 by norm_num),
    forecastStatistical_predicted_getD jitterData 2 Scenario.baseline 0.8 0
      (show 1 < 2 by norm_num),
    hcash, hwavg, hstd, hP0, hU0, hP1, hU1]
  norm_num

/-! ## Trend-direction classification (C7) -/

theorem analyzeTrend_fst (values : List ℝ) (hden : ixDenom values ≠ 0) :
    (analyzeTrend values).1 =
      (if 0.3 < (if listMean values ≠ 0 then
            npStd values / |listMean values| else 0) then TrendDirection.volatile
        else if |slopeOf values| < |listMean values| * 0.01 then
          TrendDirection.stable
        else if 0 < slopeOf values then TrendDirection.increasing
        else TrendDirection.decreasing) := by
  unfold analyzeTrend
  rw [if_neg hden]

theorem analyzeTrend_slope (values : List ℝ) (hden : ixDenom values ≠ 0) :
    (analyzeTrend values).2.1 = slopeOf values := by
  unfold analyzeTrend
  rw [if_neg hden]

/-- The direction classification exactly as the specification words it:
Volatile when `stddev(values)/|mean(values)| > 0.3`, else Stable when
`|slope| < 0.01 * |mean(values)|`, else Increasing for positive slope,
otherwise Decreasing.  (Stated from the spec, for comparison with the
code's `analyzeTrend`.) -/
def specDirection (values : List ℝ) : TrendDirection :=
  if 0.3 < npStd values / |listMean values| then .volatile
  else if |slopeOf values| < 0.01 * |listMean values| then .stable
  else if 0 < slopeOf values then .increasing
  else .decreasing

/-- C7: for every series of length at least 3 with nonzero index variance
the code's direction matches the spec's precedence order (volatility
first, then the stability band, then the slope sign); the flat series is
Stable with slope 0 and the high-swing series is Volatile despite its
upward drift. -/
theorem C7_direction_classification :
    (∀ values : List ℝ, 3 ≤ values.length → ixDenom values ≠ 0 →
      (analyzeTrend values).1 = specDirection values) ∧
    (analyzeTrend [100, 100, 100, 100, 100]).1 = TrendDirection.stable ∧
    (analyzeTrend [100, 100, 100, 100, 100]).2.1 = 0 ∧
    (analyzeTrend [100, 10, 190, 5, 200]).1 = TrendDirection.volatile := by
  have hvol_eq : ∀ values : List ℝ,
      (if listMean values ≠ 0 then npStd values / |listMean values| else 0) =
        npStd values / |listMean values| := by
    intro values
    by_cases hm : listMean values = 0
    · rw [if_neg (by simpa using hm), hm, abs_zero, div_zero]
    · rw [if_pos hm]
  have hden5 : ixDenom [(100 : ℝ), 100, 100, 100, 100] = 10 := by
    norm_num [ixDenom, ixList, listMean, List.range_succ]
  have hdenV : ixDenom [(100 : ℝ), 10, 190, 5, 200] = 10 := by
    norm_num [ixDenom, ixList, listMean, List.range_succ]
  refine ⟨?_, ?_, ?_, ?_⟩
  · intro values _ hden
    rw [analyzeTrend_fst values hden, hvol_eq values, specDirection,
      mul_comm (|listMean values|) (0.01 : ℝ)]
  · have hslope : slopeOf [(100 : ℝ), 100, 100, 100, 100] = 0 := by
      rw [slopeOf, show ixNum [(100 : ℝ), 100, 100, 100, 100] = 0 from by
        norm_num [ixNum, ixList, listMean, List.range_succ], zero_div]
    have hstd5 : npStd [(100 : ℝ), 100, 100, 100, 100] = 0 := by
      rw [npStd, show listVar [(100 : ℝ), 100, 100, 100, 100] = 0 from by
        norm_num [listVar, listMean], Real.sqrt_zero]
    rw [analyzeTrend_fst _ (by rw [hden5]; norm_num), hvol_eq, hstd5,
      show listMean [(100 : ℝ), 100, 100, 100, 100] = 100 from by
        norm_num [listMean],
      hslope]
    rw [if_neg (by norm_num), if_pos (by norm_num)]
  · rw [analyzeTrend_slope _ (by rw [hden5]; norm_num),
      slopeOf, show ixNum [(100 : ℝ), 100, 100, 100, 100] = 0 from by
        norm_num [ixNum, ixList, listMean, List.range_succ], zero_div]
  · have hstdV : npStd [(100 : ℝ), 10, 190, 5, 200] = Real.sqrt 7044 := by
      rw [npStd, show listVar [(100 : ℝ), 10, 190, 5, 200] = 7044 from by
        norm_num [listVar, listMean]]
    rw [analyzeTrend_fst _ (by rw [hdenV]; norm_num), hvol_eq, hstdV,
      show listMean [(100 : ℝ), 10, 190, 5, 200] = 101 from by
        norm_num [listMean]]
    rw [if_pos ?_]
    rw [abs_of_pos (by norm_num), lt_div_iff (by norm_num)]
    have h : (30.3 : ℝ) < Real.sqrt 7044 :=
      (Real.lt_sqrt (by norm_num)).mpr (by norm_num)
    linarith

theorem C7_direction_classification_witness :
    (analyzeTrend [(0 : ℝ), 1, 2]).1 = specDirection [(0 : ℝ), 1, 2] :=
  C7_direction_classification.1 [(0 : ℝ), 1, 2] (by norm_num)
    (by norm_num [ixDenom, ixList, listMean, List.range_succ])

/-! ## Seasonality gating (C9) -/

/-- C9: the method `_detect_seasonality` reports Monthly with a non-empty factor map
only when there are at least `minPeriods` observations, at least 4
distinct calendar months represented, and a factor variance above 0.01;
whenever any of these conditions fails it reports None with an empty
factor map. -/
theorem C9_seasonality_conditions (values : List ℝ) (months : List ℕ)
    (minPeriods : ℕ) :
    ((detectSeasonality values months minPeriods).1 = SeasonalPattern.monthly →
      (detectSeasonality values months minPeriods).2 ≠ [] ∧
      minPeriods ≤ values.length ∧
      4 ≤ (seasonKeys values months).length ∧
      0.01 < seasonFactorVar values months) ∧
    (¬ (minPeriods ≤ values.length ∧
        4 ≤ (seasonKeys values months).length ∧
        0.01 < seasonFactorVar values months) →
      (detectSeasonality values months minPeriods).1 =
        SeasonalPattern.noSeason ∧
      (detectSeasonality values months minPeriods).2 = []) := by
  unfold detectSeasonality
  split_ifs with h1 h2 h3 h4
  · exact ⟨fun h => absurd h (by simp), fun _ => ⟨rfl, rfl⟩⟩
  · exact ⟨fun h => absurd h (by simp), fun _ => ⟨rfl, rfl⟩⟩
  · refine ⟨fun _ => ⟨?_, by omega, h3, h4⟩,
      fun hnc => absurd ⟨by omega, h3, h4⟩ hnc⟩
    intro hc
    have hc' : seasonFactors values months = [] := hc
    have hlenf : (seasonFactors values months).length =
        (seasonKeys values months).length := by
      rw [seasonFactors]
      exact List.length_map _ _
    rw [hc'] at hlenf
    simp at hlenf
    omega
  · exact ⟨fun h => absurd h (by simp), fun _ => ⟨rfl, rfl⟩⟩
  · exact ⟨fun h => absurd h (by simp), fun _ => ⟨rfl, rfl⟩⟩

theorem C9_seasonality_conditions_witness :
    (detectSeasonality [] [] 12).1 = SeasonalPattern.noSeason ∧
      (detectSeasonality [] [] 12).2 = [] :=
  (C9_seasonality_conditions [] [] 12).2
    (fun h => absurd h.1 (by norm_num))

/-! ## List utilities for the scenario-ordering argument (C8) -/

theorem zipWith_getD {α β γ : Type} (f : α → β → γ) (da : α) (db : β) (dc : γ) :
    ∀ (a : List α) (b : List β) (j : ℕ), j < a.length → j < b.length →
      (List.zipWith f a b).getD j dc = f (a.getD j da) (b.getD j db)
  | _ :: _, _ :: _, 0, _, _ => rfl
  | x :: a, y :: b, j + 1, h1, h2 => by
    simp only [List.zipWith_cons_cons, List.getD_cons_succ]
    exact zipWith_getD f da db dc a b j (by simpa using h1) (by simpa using h2)
  | [], _, _, h1, _ => absurd h1 (by simp)
  | _ :: _, [], _, _, h2 => absurd h2 (by simp)

theorem list_sum_eq_range (l : List ℝ) :
    l.sum = ∑ j in Finset.range l.length, l.getD j 0 := by
  induction l with
  | nil => simp
  | cons a t ih =>
    rw [List.sum_cons, List.length_cons, Finset.sum_range_succ']
    simp only [List.getD_cons_succ, List.getD_cons_zero]
    rw [ih]
    ring

theorem getD_drop (l : List ℝ) (k j : ℕ) :
    (l.drop k).getD j 0 = l.getD (k + j) 0 := by
  rw [List.getD_eq_getD_get?, List.getD_eq_getD_get?, List.get?_drop]

theorem getLast?_getD_eq_getD (l : List ℝ) (h : l ≠ []) :
    l.getLast?.getD 0 = l.getD (l.length - 1) 0 := by
  induction l with
  | nil => exact absurd rfl h
  | cons a t ih =>
    cases t with
    | nil => rfl
    | cons b t' =>
      rw [List.getLast?_cons_cons, ih (by simp)]
      simp [List.getD_cons_succ]

/-- The last element of the rebuilt balance list is the first balance
plus the sum of the accumulated net flows. -/
theorem rebuildBal_last (l : List ℝ) :
    ∀ prev : ℝ, (prev :: rebuildBal prev l).getLast?.getD 0 = prev + l.sum := by
  induction l with
  | nil => intro prev; simp [rebuildBal]
  | cons x xs ih =>
    intro prev
    rw [show rebuildBal prev (x :: xs) = (prev + x) :: rebuildBal (prev + x) xs
        from rfl,
      List.getLast?_cons_cons, ih (prev + x), List.sum_cons]
    ring

/-- Weighted sums with nonnegative weights preserve the pointwise order. -/
theorem zipWith_mul_sum_le :
    ∀ (a b w : List ℝ), a.length = b.length →
      (∀ j, j < a.length → a.getD j 0 ≤ b.getD j 0) →
      (∀ x ∈ w, 0 ≤ x) →
      (List.zipWith (fun f v => f * v) a w).sum ≤
        (List.zipWith (fun f v => f * v) b w).sum
  | [], [], _, _, _, _ => le_refl _
  | [], _ :: _, _, hlen, _, _ => absurd hlen (by simp)
  | _ :: _, [], _, hlen, _, _ => absurd hlen (by simp)
  | _, _, [], _, _, _ => by simp [List.zipWith_nil_right]
  | a0 :: a, b0 :: b, w0 :: w, hlen, hle, hw => by
    simp only [List.zipWith_cons_cons, List.sum_cons]
    have h0 : a0 ≤ b0 := by simpa using hle 0 (by simp)
    have hw0 : 0 ≤ w0 := hw w0 (by simp)
    have ih := zipWith_mul_sum_le a b w (by simpa using hlen)
      (fun j hj => by simpa using hle (j + 1) (by simpa using hj))
      (fun x hx => hw x (by simp [hx]))
    have hh : a0 * w0 ≤ b0 * w0 := mul_le_mul_of_nonneg_right h0 hw0
    linarith

theorem weightedMovingAvg_eq (l : List ℝ) :
    weightedMovingAvg l =
      (List.zipWith (fun f v => f * v) (l.drop (l.length - min 6 l.length))
        ((List.range (l.drop (l.length - min 6 l.length)).length).map
          (fun i => ((i + 1 : ℕ) : ℝ)))).sum /
      ((List.range (l.drop (l.length - min 6 l.length)).length).map
        (fun i => ((i + 1 : ℕ) : ℝ))).sum := rfl

/-- The weighted moving average preserves the pointwise order of two
equal-length net-flow lists. -/
theorem weightedMovingAvg_mono (a b : List ℝ) (hlen : a.length = b.length)
    (hle : ∀ j, j < a.length → a.getD j 0 ≤ b.getD j 0) :
    weightedMovingAvg a ≤ weightedMovingAvg b := by
  rw [weightedMovingAvg_eq, weightedMovingAvg_eq]
  have hK : b.length - min 6 b.length = a.length - min 6 a.length := by
    rw [hlen]
  rw [hK]
  have hdl : (b.drop (a.length - min 6 a.length)).length =
      (a.drop (a.length - min 6 a.length)).length := by
    simp [hlen]
  rw [hdl]
  set K := a.length - min 6 a.length with hKdef
  set w := (List.range ((a.drop K).length)).map (fun i => ((i + 1 : ℕ) : ℝ))
    with hw
  have hdlen : (a.drop K).length = (b.drop K).length := by
    simp [hlen]
  have hwnn : ∀ x ∈ w, 0 ≤ x := by
    intro x hx
    rw [hw] at hx
    obtain ⟨i, _, rfl⟩ := List.mem_map.mp hx
    positivity
  have hd : ∀ j, j < (a.drop K).length →
      (a.drop K).getD j 0 ≤ (b.drop K).getD j 0 := by
    intro j hj
    rw [getD_drop, getD_drop]
    apply hle
    have := List.length_drop K a ▸ hj
    omega
  have hsum := zipWith_mul_sum_le (a.drop K) (b.drop K) w hdlen hd hwnn
  have hwsum : 0 ≤ w.sum := List.sum_nonneg hwnn
  exact div_le_div_of_nonneg_right hsum hwsum

theorem adjustTail_length (factor : ℝ) (n : ℕ) (l : List ℝ) (hn : n ≤ l.length) :
    (adjustTail factor n l).length = l.length := by
  unfold adjustTail
  rw [List.length_append, List.length_take, List.length_zipWith,
    List.length_drop, List.length_range]
  omega

theorem adjustTail_getD_front (factor : ℝ) (n : ℕ) (l : List ℝ) {j : ℕ}
    (hj : j < l.length - n) :
    (adjustTail factor n l).getD j 0 = l.getD j 0 := by
  unfold adjustTail
  rw [List.getD_append _ _ _ _ (by
    rw [List.length_take]
    omega)]
  rw [List.getD_eq_getD_get?, List.getD_eq_getD_get?, List.get?_take (by omega)]

theorem adjustTail_getD_back (factor : ℝ) (n : ℕ) (l : List ℝ) (hn : n ≤ l.length)
    {j : ℕ} (h1 : l.length - n ≤ j) (hj : j < l.length) :
    (adjustTail factor n l).getD j 0 =
      l.getD j 0 *
        (1 + (factor - 1) * ((j - (l.length - n) + 1 : ℕ) : ℝ) / n) := by
  unfold adjustTail
  rw [List.getD_append_right _ _ _ _ (by
    rw [List.length_take]
    omega)]
  rw [List.length_take, min_eq_left (by omega)]
  rw [zipWith_getD _ (0 : ℝ) (0 : ℕ) (0 : ℝ) _ _ _
    (by rw [List.length_drop]; omega)
    (by rw [List.length_range]; omega)]
  rw [getD_drop, show l.length - n + (j - (l.length - n)) = j from by omega]
  rw [List.getD_eq_getElem _ _ (by simpa using by omega : j - (l.length - n) <
    (List.range n).length)]
  simp

theorem applyScenario_eq (data : CashFlowData) (fI fO : ℝ) (s : Scenario)
    (hs : scenarioFactors s = some (fI, fO)) :
    applyScenario s data =
      { dates := data.dates
        cash_inflows := adjustTail fI (min 3 data.dates.length) data.cash_inflows
        cash_outflows := adjustTail fO (min 3 data.dates.length) data.cash_outflows
        cash_balances :=
          match data.cash_balances with
          | [] => []
          | b0 :: _ => b0 :: rebuildBal b0
              ((List.zipWith (fun i o => i - o)
                (adjustTail fI (min 3 data.dates.length) data.cash_inflows)
                (adjustTail fO (min 3 data.dates.length) data.cash_outflows)).drop
                  1) } := by
  unfold applyScenario
  rw [hs]

theorem balance_telescope (B net : List ℝ)
    (hbal : ∀ j, 1 ≤ j → j < B.length →
      B.getD j 0 = B.getD (j - 1) 0 + net.getD j 0) :
    ∀ k, k < B.length →
      B.getD k 0 = B.getD 0 0 + ∑ j in Finset.range k, net.getD (j + 1) 0 := by
  intro k
  induction k with
  | zero => intro _; simp
  | succ m ih =>
    intro hk
    rw [hbal (m + 1) (by omega) hk, Finset.sum_range_succ,
      show m + 1 - 1 = m from rfl, ih (by omega)]
    ring

theorem drop_one_sum (l : List ℝ) :
    (l.drop 1).sum = ∑ j in Finset.range (l.length - 1), l.getD (j + 1) 0 := by
  rw [list_sum_eq_range, List.length_drop]
  refine Finset.sum_congr rfl ?_
  intro j _
  rw [getD_drop, Nat.add_comm]

theorem netCashFlow_length (data : CashFlowData) (L : ℕ)
    (hlenI : data.cash_inflows.length = L) (hlenO : data.cash_outflows.length = L) :
    (netCashFlow data).length = L := by
  rw [netCashFlow, List.length_zipWith, hlenI, hlenO, min_self]

theorem netCashFlow_getD (data : CashFlowData) {L j : ℕ}
    (hlenI : data.cash_inflows.length = L) (hlenO : data.cash_outflows.length = L)
    (hj : j < L) :
    (netCashFlow data).getD j 0 =
      data.cash_inflows.getD j 0 - data.cash_outflows.getD j 0 := by
  rw [netCashFlow]
  exact zipWith_getD _ 0 0 0 _ _ _ (by omega) (by omega)

/-- With inflow factor at least 1, outflow factor in [0, 1] and
nonnegative flows, every adjusted net flow dominates the original. -/
theorem adjusted_net_ge (dIn dOut : List ℝ) (L : ℕ) (fI fO : ℝ)
    (hI1 : 1 ≤ fI) (hO0 : 0 ≤ fO) (hO1 : fO ≤ 1)
    (hlenI : dIn.length = L) (hlenO : dOut.length = L) (h3 : 3 ≤ L)
    (hIn : ∀ j, j < L → 0 ≤ dIn.getD j 0)
    (hOut : ∀ j, j < L → 0 ≤ dOut.getD j 0) :
    ∀ j, j < L →
      (List.zipWith (fun i o => i - o) dIn dOut).getD j 0 ≤
        (List.zipWith (fun i o => i - o) (adjustTail fI (min 3 L) dIn)
          (adjustTail fO (min 3 L) dOut)).getD j 0 := by
  intro j hj
  have hlenI' : (adjustTail fI (min 3 L) dIn).length = L := by
    rw [adjustTail_length _ _ _ (by omega), hlenI]
  have hlenO' : (adjustTail fO (min 3 L) dOut).length = L := by
    rw [adjustTail_length _ _ _ (by omega), hlenO]
  rw [zipWith_getD _ (0 : ℝ) (0 : ℝ) (0 : ℝ) _ _ _ (by omega) (by omega),
    zipWith_getD _ (0 : ℝ) (0 : ℝ) (0 : ℝ) _ _ _ (by omega) (by omega)]
  by_cases hfront : j < dIn.length - min 3 L
  · rw [adjustTail_getD_front _ _ _ hfront,
      adjustTail_getD_front _ _ _ (by omega)]
  · have hIb := adjustTail_getD_back fI (min 3 L) dIn (by omega)
      (by omega) (by omega : j < dIn.length)
    have hOb := adjustTail_getD_back fO (min 3 L) dOut (by omega)
      (by omega) (by omega : j < dOut.length)
    rw [hIb, hOb, hlenI, hlenO]
    set c := ((j - (L - min 3 L) + 1 : ℕ) : ℝ) with hc
    have hcpos : (0 : ℝ) ≤ c := by positivity
    have hcle : c ≤ ((min 3 L : ℕ) : ℝ) := by
      rw [hc]
      have : j - (L - min 3 L) + 1 ≤ min 3 L := by omega
      exact_mod_cast this
    have hnpos : (0 : ℝ) < ((min 3 L : ℕ) : ℝ) := by
      have : 0 < min 3 L := by omega
      exact_mod_cast this
    set w := c / ((min 3 L : ℕ) : ℝ) with hwdef
    have hw0 : 0 ≤ w := div_nonneg hcpos (le_of_lt hnpos)
    have hw1 : w ≤ 1 := by
      rw [hwdef, div_le_one hnpos]
      exact hcle
    have t1 : 0 ≤ dIn.getD j 0 * ((fI - 1) * w) :=
      mul_nonneg (hIn j hj) (mul_nonneg (by linarith) hw0)
    have t2 : 0 ≤ dOut.getD j 0 * ((1 - fO) * w) :=
      mul_nonneg (hOut j hj) (mul_nonneg (by linarith) hw0)
    have hmulI : (fI - 1) * c / ((min 3 L : ℕ) : ℝ) = (fI - 1) * w := by
      rw [hwdef]; ring
    have hmulO : (fO - 1) * c / ((min 3 L : ℕ) : ℝ) = (fO - 1) * w := by
      rw [hwdef]; ring
    rw [hmulI, hmulO]
    nlinarith [t1, t2]

/-- With inflow factor in [0, 1], outflow factor at least 1 and
nonnegative flows, every adjusted net flow is dominated by the original. -/
theorem adjusted_net_le (dIn dOut : List ℝ) (L : ℕ) (fI fO : ℝ)
    (hI0 : 0 ≤ fI) (hI1 : fI ≤ 1) (hO1 : 1 ≤ fO)
    (hlenI : dIn.length = L) (hlenO : dOut.length = L) (h3 : 3 ≤ L)
    (hIn : ∀ j, j < L → 0 ≤ dIn.getD j 0)
    (hOut : ∀ j, j < L → 0 ≤ dOut.getD j 0) :
    ∀ j, j < L →
      (List.zipWith (fun i o => i - o) (adjustTail fI (min 3 L) dIn)
          (adjustTail fO (min 3 L) dOut)).getD j 0 ≤
        (List.zipWith (fun i o => i - o) dIn dOut).getD j 0 := by
  intro j hj
  have hlenI' : (adjustTail fI (min 3 L) dIn).length = L := by
    rw [adjustTail_length _ _ _ (by omega), hlenI]
  have hlenO' : (adjustTail fO (min 3 L) dOut).length = L := by
    rw [adjustTail_length _ _ _ (by omega), hlenO]
  rw [zipWith_getD _ (0 : ℝ) (0 : ℝ) (0 : ℝ) _ _ _ (by omega) (by omega),
    zipWith_getD _ (0 : ℝ) (0 : ℝ) (0 : ℝ) _ _ _ (by omega) (by omega)]
  by_cases hfront : j < dIn.length - min 3 L
  · rw [adjustTail_getD_front _ _ _ hfront,
      adjustTail_getD_front _ _ _ (by omega)]
  · have hIb := adjustTail_getD_back fI (min 3 L) dIn (by omega)
      (by omega) (by omega : j < dIn.length)
    have hOb := adjustTail_getD_back fO (min 3 L) dOut (by omega)
      (by omega) (by omega : j < dOut.length)
    rw [hIb, hOb, hlenI, hlenO]
    set c := ((j - (L - min 3 L) + 1 : ℕ) : ℝ) with hc
    have hcpos : (0 : ℝ) ≤ c := by positivity
    have hcle : c ≤ ((min 3 L : ℕ) : ℝ) := by
      rw [hc]
      have : j - (L - min 3 L) + 1 ≤ min 3 L := by omega
      exact_mod_cast this
    have hnpos : (0 : ℝ) < ((min 3 L : ℕ) : ℝ) := by
      have : 0 < min 3 L := by omega
      exact_mod_cast this
    set w := c / ((min 3 L : ℕ) : ℝ) with hwdef
    have hw0 : 0 ≤ w := div_nonneg hcpos (le_of_lt hnpos)
    have hw1 : w ≤ 1 := by
      rw [hwdef, div_le_one hnpos]
      exact hcle
    have t1 : 0 ≤ dIn.getD j 0 * ((1 - fI) * w) :=
      mul_nonneg (hIn j hj) (mul_nonneg (by linarith) hw0)
    have t2 : 0 ≤ dOut.getD j 0 * ((fO - 1) * w) :=
      mul_nonneg (hOut j hj) (mul_nonneg (by linarith) hw0)
    have hmulI : (fI - 1) * c / ((min 3 L : ℕ) : ℝ) = (fI - 1) * w := by
      rw [hwdef]; ring
    have hmulO : (fO - 1) * c / ((min 3 L : ℕ) : ℝ) = (fO - 1) * w := by
      rw [hwdef]; ring
    rw [hmulI, hmulO]
    nlinarith [t1, t2]

theorem lastCash_eq_of_consistent (data : CashFlowData) (L : ℕ)
    (hlenI : data.cash_inflows.length = L) (hlenO : data.cash_outflows.length = L)
    (hlenB : data.cash_balances.length = L) (h3 : 3 ≤ L)
    (hbal : ∀ j, 1 ≤ j → j < data.cash_balances.length →
      data.cash_balances.getD j 0 = data.cash_balances.getD (j - 1) 0 +
        (data.cash_inflows.getD j 0 - data.cash_outflows.getD j 0)) :
    lastCashOf data = data.cash_balances.getD 0 0 +
      ∑ j in Finset.range (L - 1), (netCashFlow data).getD (j + 1) 0 := by
  have hBne : data.cash_balances ≠ [] := by
    intro h
    rw [h] at hlenB
    simp at hlenB
    omega
  rw [lastCashOf, getLast?_getD_eq_getD _ hBne, hlenB]
  have hbal' : ∀ j, 1 ≤ j → j < data.cash_balances.length →
      data.cash_balances.getD j 0 = data.cash_balances.getD (j - 1) 0 +
        (netCashFlow data).getD j 0 := by
    intro j h1 hjB
    rw [netCashFlow_getD data hlenI hlenO (by omega)]
    exact hbal j h1 hjB
  rw [balance_telescope data.cash_balances (netCashFlow data) hbal' (L - 1)
    (by omega)]

theorem lastCash_eq_adjusted (data : CashFlowData) (L : ℕ) (fI fO : ℝ)
    (s : Scenario) (hs : scenarioFactors s = some (fI, fO))
    (hdates : data.dates.length = L)
    (hlenI : data.cash_inflows.length = L) (hlenO : data.cash_outflows.length = L)
    (hlenB : data.cash_balances.length = L) (h3 : 3 ≤ L) :
    lastCashOf (applyScenario s data) = data.cash_balances.getD 0 0 +
      ∑ j in Finset.range (L - 1),
        (netCashFlow (applyScenario s data)).getD (j + 1) 0 := by
  have hNAdj : netCashFlow (applyScenario s data) =
      List.zipWith (fun i o => i - o)
        (adjustTail fI (min 3 data.dates.length) data.cash_inflows)
        (adjustTail fO (min 3 data.dates.length) data.cash_outflows) := by
    rw [applyScenario_eq data fI fO s hs]
    rfl
  have hNlen : (netCashFlow (applyScenario s data)).length = L := by
    rw [hNAdj, List.length_zipWith,
      adjustTail_length _ _ _ (by rw [hlenI, hdates]; omega),
      adjustTail_length _ _ _ (by rw [hlenO, hdates]; omega),
      hlenI, hlenO, min_self]
  obtain ⟨b0, rest, hB⟩ : ∃ b0 rest, data.cash_balances = b0 :: rest := by
    cases hBc : data.cash_balances with
    | nil => rw [hBc] at hlenB; simp at hlenB; omega
    | cons x xs => exact ⟨x, xs, rfl⟩
  have hlast : lastCashOf (applyScenario s data) =
      b0 + ((List.zipWith (fun i o => i - o)
        (adjustTail fI (min 3 data.dates.length) data.cash_inflows)
        (adjustTail fO (min 3 data.dates.length) data.cash_outflows)).drop 1).sum := by
    rw [lastCashOf, applyScenario_eq data fI fO s hs]
    simp only [hB]
    exact rebuildBal_last _ b0
  rw [hlast, ← hNAdj, drop_one_sum, hNlen, hB]
  simp

/-- Pointwise net-flow domination lifts to the projected ending balance
`last_cash + p * weighted_avg`. -/
theorem ending_le_adjusted (data : CashFlowData) (L : ℕ) (fI fO : ℝ)
    (s : Scenario) (p : ℕ) (hs : scenarioFactors s = some (fI, fO))
    (hI1 : 1 ≤ fI) (hO0 : 0 ≤ fO) (hO1 : fO ≤ 1)
    (hdates : data.dates.length = L)
    (hlenI : data.cash_inflows.length = L) (hlenO : data.cash_outflows.length = L)
    (hlenB : data.cash_balances.length = L) (h3 : 3 ≤ L)
    (hIn : ∀ j, j < L → 0 ≤ data.cash_inflows.getD j 0)
    (hOut : ∀ j, j < L → 0 ≤ data.cash_outflows.getD j 0)
    (hbal : ∀ j, 1 ≤ j → j < data.cash_balances.length →
      data.cash_balances.getD j 0 = data.cash_balances.getD (j - 1) 0 +
        (data.cash_inflows.getD j 0 - data.cash_outflows.getD j 0)) :
    lastCashOf data + p * wavgOf data ≤
      lastCashOf (applyScenario s data) + p * wavgOf (applyScenario s data) := by
  have hNAdj : netCashFlow (applyScenario s data) =
      List.zipWith (fun i o => i - o)
        (adjustTail fI (min 3 data.dates.length) data.cash_inflows)
        (adjustTail fO (min 3 data.dates.length) data.cash_outflows) := by
    rw [applyScenario_eq data fI fO s hs]
    rfl
  have hNlen : (netCashFlow data).length = L := netCashFlow_length data L hlenI hlenO
  have hNAlen : (netCashFlow (applyScenario s data)).length = L := by
    rw [hNAdj, List.length_zipWith,
      adjustTail_length _ _ _ (by rw [hlenI, hdates]; omega),
      adjustTail_length _ _ _ (by rw [hlenO, hdates]; omega),
      hlenI, hlenO, min_self]
  have hNle : ∀ j, j < L → (netCashFlow data).getD j 0 ≤
      (netCashFlow (applyScenario s data)).getD j 0 := by
    intro j hj
    rw [hNAdj, hdates, netCashFlow]
    exact adjusted_net_ge data.cash_inflows data.cash_outflows L fI fO
      hI1 hO0 hO1 hlenI hlenO h3 hIn hOut j hj
  have hlastle : lastCashOf data ≤ lastCashOf (applyScenario s data) := by
    rw [lastCash_eq_of_consistent data L hlenI hlenO hlenB h3 hbal,
      lastCash_eq_adjusted data L fI fO s hs hdates hlenI hlenO hlenB h3]
    apply add_le_add_left
    apply Finset.sum_le_sum
    intro j hjmem
    exact hNle (j + 1) (by
      have := Finset.mem_range.mp hjmem
      omega)
  have hwle : wavgOf data ≤ wavgOf (applyScenario s data) := by
    rw [wavgOf, wavgOf]
    exact weightedMovingAvg_mono _ _ (by rw [hNlen, hNAlen])
      (fun j hj => hNle j (by rw [hNlen] at hj; exact hj))
  have hp : (0 : ℝ) ≤ (p : ℝ) := Nat.cast_nonneg p
  have hmul := mul_le_mul_of_nonneg_left hwle hp
  linarith

theorem ending_ge_adjusted (data : CashFlowData) (L : ℕ) (fI fO : ℝ)
    (s : Scenario) (p : ℕ) (hs : scenarioFactors s = some (fI, fO))
    (hI0 : 0 ≤ fI) (hI1 : fI ≤ 1) (hO1 : 1 ≤ fO)
    (hdates : data.dates.length = L)
    (hlenI : data.cash_inflows.length = L) (hlenO : data.cash_outflows.length = L)
    (hlenB : data.cash_balances.length = L) (h3 : 3 ≤ L)
    (hIn : ∀ j, j < L → 0 ≤ data.cash_inflows.getD j 0)
    (hOut : ∀ j, j < L → 0 ≤ data.cash_outflows.getD j 0)
    (hbal : ∀ j, 1 ≤ j → j < data.cash_balances.length →
      data.cash_balances.getD j 0 = data.cash_balances.getD (j - 1) 0 +
        (data.cash_inflows.getD j 0 - data.cash_outflows.getD j 0)) :
    lastCashOf (applyScenario s data) + p * wavgOf (applyScenario s data) ≤
      lastCashOf data + p * wavgOf data := by
  have hNAdj : netCashFlow (applyScenario s data) =
      List.zipWith (fun i o => i - o)
        (adjustTail fI (min 3 data.dates.length) data.cash_inflows)
        (adjustTail fO (min 3 data.dates.length) data.cash_outflows) := by
    rw [applyScenario_eq data fI fO s hs]
    rfl
  have hNlen : (netCashFlow data).length = L := netCashFlow_length data L hlenI hlenO
  have hNAlen : (netCashFlow (applyScenario s data)).length = L := by
    rw [hNAdj, List.length_zipWith,
      adjustTail_length _ _ _ (by rw [hlenI, hdates]; omega),
      adjustTail_length _ _ _ (by rw [hlenO, hdates]; omega),
      hlenI, hlenO, min_self]
  have hNge : ∀ j, j < L → (netCashFlow (applyScenario s data)).getD j 0 ≤
      (netCashFlow data).getD j 0 := by
    intro j hj
    rw [hNAdj, hdates, netCashFlow]
    exact adjusted_net_le data.cash_inflows data.cash_outflows L fI fO
      hI0 hI1 hO1 hlenI hlenO h3 hIn hOut j hj
  have hlastle : lastCashOf (applyScenario s data) ≤ lastCashOf data := by
    rw [lastCash_eq_of_consistent data L hlenI hlenO hlenB h3 hbal,
      lastCash_eq_adjusted data L fI fO s hs hdates hlenI hlenO hlenB h3]
    apply add_le_add_left
    apply Finset.sum_le_sum
    intro j hjmem
    exact hNge (j + 1) (by
      have := Finset.mem_range.mp hjmem
      omega)
  have hwle : wavgOf (applyScenario s data) ≤ wavgOf data := by
    rw [wavgOf, wavgOf]
    exact weightedMovingAvg_mono _ _ (by rw [hNlen, hNAlen])
      (fun j hj => hNge j (by rw [hNAlen] at hj; exact hj))
  have hp : (0 : ℝ) ≤ (p : ℝ) := Nat.cast_nonneg p
  have hmul := mul_le_mul_of_nonneg_left hwle hp
  linarith

/-- C8 (amended): for a historical series with nonnegative inflows and
outflows whose balance column is consistent with the flows
(`balance[j] = balance[j-1] + net[j]`), the ending predicted balance is
ordered Pessimistic ≤ Baseline ≤ Optimistic.  Both side conditions are
necessary: non-baseline scenarios rebuild the balance column from the
flows while Baseline keeps the stated balances, and a negative inflow is
scaled the wrong way by the optimistic multiplier. -/
theorem C8_scenario_ordering (data : CashFlowData) (p : ℕ) (conf : ℝ) (now : ℤ)
    (hp : 1 ≤ p)
    (hlenI : data.cash_inflows.length = data.dates.length)
    (hlenO : data.cash_outflows.length = data.dates.length)
    (hlenB : data.cash_balances.length = data.dates.length)
    (h3 : 3 ≤ data.dates.length)
    (hIn : ∀ j, j < data.dates.length → 0 ≤ data.cash_inflows.getD j 0)
    (hOut : ∀ j, j < data.dates.length → 0 ≤ data.cash_outflows.getD j 0)
    (hbal : ∀ j, 1 ≤ j → j < data.cash_balances.length →
      data.cash_balances.getD j 0 = data.cash_balances.getD (j - 1) 0 +
        (data.cash_inflows.getD j 0 - data.cash_outflows.getD j 0)) :
    (∀ s : Scenario, forecast data p s conf now =
      Except.ok (forecastStatistical (applyScenario s data) p s conf now)) ∧
    (forecastStatistical (applyScenario Scenario.pessimistic data) p
        Scenario.pessimistic conf now).predicted_cash.getD (p - 1) 0 ≤
      (forecastStatistical (applyScenario Scenario.baseline data) p
        Scenario.baseline conf now).predicted_cash.getD (p - 1) 0 ∧
    (forecastStatistical (applyScenario Scenario.baseline data) p
        Scenario.baseline conf now).predicted_cash.getD (p - 1) 0 ≤
      (forecastStatistical (applyScenario Scenario.optimistic data) p
        Scenario.optimistic conf now).predicted_cash.getD (p - 1) 0 := by
  have hlink : ∀ s : Scenario, forecast data p s conf now =
      Except.ok (forecastStatistical (applyScenario s data) p s conf now) := by
    intro s
    unfold forecast
    rw [if_neg (by omega)]
  have hbase : applyScenario Scenario.baseline data = data := rfl
  have hcast : ((p - 1 : ℕ) : ℝ) + 1 = (p : ℝ) := by
    rw [Nat.cast_sub hp]
    norm_num
  have hpe := ending_ge_adjusted data data.dates.length 0.80 1.10
    Scenario.pessimistic p rfl (by norm_num) (by norm_num) (by norm_num)
    rfl hlenI hlenO hlenB h3 hIn hOut hbal
  have hop := ending_le_adjusted data data.dates.length 1.20 0.90
    Scenario.optimistic p rfl (by norm_num) (by norm_num) (by norm_num)
    rfl hlenI hlenO hlenB h3 hIn hOut hbal
  refine ⟨hlink, ?_, ?_⟩
  · rw [forecastStatistical_predicted_getD _ _ _ _ _ (show p - 1 < p by omega),
      forecastStatistical_predicted_getD _ _ _ _ _ (show p - 1 < p by omega),
      hbase, hcast]
    exact round2_mono hpe
  · rw [forecastStatistical_predicted_getD _ _ _ _ _ (show p - 1 < p by omega),
      forecastStatistical_predicted_getD _ _ _ _ _ (show p - 1 < p by omega),
      hbase, hcast]
    exact round2_mono hop

theorem C8_scenario_ordering_witness :
    (forecastStatistical (applyScenario Scenario.pessimistic declineData) 2
        Scenario.pessimistic 0.8 0).predicted_cash.getD 1 0 ≤
      (forecastStatistical (applyScenario Scenario.baseline declineData) 2
        Scenario.baseline 0.8 0).predicted_cash.getD 1 0 ∧
    (forecastStatistical (applyScenario Scenario.baseline declineData) 2
        Scenario.baseline 0.8 0).predicted_cash.getD 1 0 ≤
      (forecastStatistical (applyScenario Scenario.optimistic declineData) 2
        Scenario.optimistic 0.8 0).predicted_cash.getD 1 0 := by
  have h := C8_scenario_ordering declineData 2 0.8 0 (by norm_num)
    (by norm_num [declineData]) (by norm_num [declineData])
    (by norm_num [declineData]) (by norm_num [declineData])
    (by
      intro j hj
      simp only [declineData] at hj ⊢
      norm_num at hj
      interval_cases j <;> norm_num)
    (by
      intro j hj
      simp only [declineData] at hj ⊢
      norm_num at hj
      interval_cases j <;> norm_num)
    (by
      intro j h1 h2
      simp only [declineData] at h2 ⊢
      norm_num at h2
      interval_cases j <;> norm_num)
  exact ⟨h.2.1, h.2.2⟩

/-- A series whose stated balance column (all zeros) is inconsistent with
its heavily negative net flows. -/
def inconsistentData : CashFlowData :=
  { dates := [0, 30, 60]
    cash_inflows := [0, 0, 0]
    cash_outflows := [100, 100, 100]
    cash_balances := [0, 0, 0] }

/-- The optimistic adjustment of `inconsistentData`: the outflows get the
faded 0.9 factor and the balance column is rebuilt from the flows. -/
def inconsistentOpt : CashFlowData :=
  { dates := [0, 30, 60]
    cash_inflows := [0, 0, 0]
    cash_outflows := [290 / 3, 280 / 3, 90]
    cash_balances := [0, -280 / 3, -550 / 3] }

/-- C8 (counterexample): on `inconsistentData` (nonnegative flows, but a
balance column that does not match them) the Optimistic ending predicted
balance is -275.56 while the Baseline one is -100 — Optimistic ends
strictly below Baseline, refuting the claimed ordering for arbitrary
series. -/
theorem C8_counterexample :
    (forecast inconsistentData 1 Scenario.optimistic 0.8 0).map
        (fun r => r.predicted_cash.getD 0 0) = Except.ok (-27556 / 100) ∧
      (forecast inconsistentData 1 Scenario.baseline 0.8 0).map
        (fun r => r.predicted_cash.getD 0 0) = Except.ok (-100) ∧
      ¬ ((-100 : ℝ) ≤ -27556 / 100) := by
  refine ⟨?_, ?_, by norm_num⟩
  · have hD : applyScenario Scenario.optimistic inconsistentData =
        inconsistentOpt := by
      rw [applyScenario_eq inconsistentData 1.20 0.90 Scenario.optimistic rfl]
      norm_num [inconsistentData, inconsistentOpt, adjustTail, rebuildBal,
        List.range_succ, CashFlowData.mk.injEq]
    have hwavgO : wavgOf inconsistentOpt = -830 / 9 := by
      rw [wavgOf, show netCashFlow inconsistentOpt =
        [-290 / 3, -280 / 3, -90] from by norm_num [netCashFlow, inconsistentOpt]]
      norm_num [weightedMovingAvg, List.range_succ]
    have hcashO : lastCashOf inconsistentOpt = -550 / 3 := by
      norm_num [lastCashOf, inconsistentOpt]
    unfold forecast
    rw [if_neg (by norm_num [inconsistentData]), hD]
    simp only [Except.map, Except.ok.injEq]
    rw [forecastStatistical_predicted_getD inconsistentOpt 1
      Scenario.optimistic 0.8 0 (show 0 < 1 by norm_num), hcashO, hwavgO]
    rw [show (-550 / 3 : ℝ) + (((0 : ℕ) : ℝ) + 1) * (-830 / 9) = -2480 / 9 by
      norm_num]
    exact round2_eval (-27556) (by norm_num) (by norm_num) (by norm_num)
  · have hwavgB : wavgOf inconsistentData = -100 := by
      rw [wavgOf, show netCashFlow inconsistentData =
        [-100, -100, -100] from by norm_num [netCashFlow, inconsistentData]]
      norm_num [weightedMovingAvg, List.range_succ]
    have hcashB : lastCashOf inconsistentData = 0 := by
      norm_num [lastCashOf, inconsistentData]
    unfold forecast
    rw [if_neg (by norm_num [inconsistentData]),
      show applyScenario Scenario.baseline inconsistentData = inconsistentData
        from rfl]
    simp only [Except.map, Except.ok.injEq]
    rw [forecastStatistical_predicted_getD inconsistentData 1
      Scenario.baseline 0.8 0 (show 0 < 1 by norm_num), hcashB, hwavgB]
    rw [show (0 : ℝ) + (((0 : ℕ) : ℝ) + 1) * (-100) = -100 by norm_num]
    exact round2_eval (-10000) (by norm_num) (by norm_num) (by norm_num)

end
